import Mathlib

/-!
# Derek pull-request handler

A shallow embedding of `handler/pullRequestHandler.go`.

Go strings are Lean `String`s, read as sequences of Unicode characters: the payloads
are decoded JSON, hence valid UTF-8, on which the byte-wise search and trimming of the Go
library agree with the character-wise ones.  The remote hosting API is an explicit state
(`Remote`) together with a fault oracle (`Env.fails`); every outbound call is
appended to a trace.  `log.Fatal*` ends the process, which is the outcome
`Outcome.fatal`: nothing is executed after it.
-/

namespace Derek

/-! ## Data model -/

/-- The `github.Commit` payload: only the optional message is consulted. -/
structure Commit where
  Message : Option String
deriving DecidableEq, Repr

/-- The `github.RepositoryCommit` element of a commit listing; its `Commit` pointer may be nil. -/
structure RepositoryCommit where
  Commit : Option Commit
deriving DecidableEq, Repr

/-- The `github.Label` record; its `Name` pointer may be nil. -/
structure Label where
  Name : Option String
deriving DecidableEq, Repr

/-- The accessor `(*github.Label).GetName`: the name, or the empty string when it is nil. -/
def Label.GetName (l : Label) : String := l.Name.getD ""

/-- The `github.Issue` record: only its labels are consulted. -/
structure Issue where
  Labels : List Label
deriving DecidableEq, Repr

/-- Modelled from the spec: the type `types.Owner` is declared outside this file; the spec
gives a repository an owner login. -/
structure Owner where
  Login : String
deriving DecidableEq, Repr

/-- Modelled from the spec: the type `types.Repository` is declared outside this file; the
spec gives it an owner and a name. -/
structure Repository where
  Owner : Owner
  Name : String
deriving DecidableEq, Repr

/-- Modelled from the spec: the type `types.PullRequest` and its method
`FirstTimeContributor` are declared outside this file; the spec gives a pull request a
number, a body and a first-time-contributor flag. -/
structure PullRequest where
  Number : Int
  Body : String
  FirstTimeContributor : Bool
deriving DecidableEq, Repr

/-- Modelled from the spec: the type `types.Installation` is declared outside this file;
the spec gives it an identifier. -/
structure Installation where
  ID : Int
deriving DecidableEq, Repr

/-- Modelled from the spec: the type `types.PullRequestOuter` is declared outside this
file; the spec gives the event an action, a repository, a pull request and an
installation. -/
structure PullRequestOuter where
  Action : String
  Repository : Repository
  PullRequest : PullRequest
  Installation : Installation
deriving DecidableEq, Repr

/-- Modelled from the spec: the type `config.Config` is declared outside this file; the
handler reads the application id and the private key from it. -/
structure Config where
  ApplicationID : String
  PrivateKey : String
deriving DecidableEq, Repr

def prDescriptionRequiredLabel : String := "invalid"

def openedPRAction : String := "opened"

/-! ## Outbound calls, environment and remote state -/

/-- One outbound call, with the arguments the handler passes. -/
inductive Call where
  | MakeAccessTokenForInstallation (appID : String) (installationID : Int) (privateKey : String)
  | ListCommits (owner repo : String) (number : Int) (page : Int)
  | GetIssue (owner repo : String) (number : Int)
  | AddLabelsToIssue (owner repo : String) (number : Int) (labels : List String)
  | RemoveLabelForIssue (owner repo : String) (number : Int) (label : String)
  | CreateComment (owner repo : String) (number : Int) (body : String)
deriving DecidableEq, Repr

/-- The execution environment of one invocation: the process environment variables, the
installation-token exchange (a token and an optional error, as the Go function returns
them), and the oracle that says which API calls come back with an error. -/
structure Env where
  vars : String → Option String
  exchange : String → Int → String → String × Option String
  fails : Call → Bool

/-- The function `os.Getenv`: the value of the variable, empty when it is not set. -/
def Env.Getenv (env : Env) (key : String) : String := (env.vars key).getD ""

/-- The state of the pull request on the hosting service. -/
structure Remote where
  commits : List RepositoryCommit
  labels : List Label
  comments : List String
deriving DecidableEq, Repr

/-- The state threaded through one invocation: the calls made so far and the remote. -/
structure St where
  trace : List Call
  remote : Remote
deriving DecidableEq, Repr

/-- Record a call at the end of the trace. -/
def St.call (s : St) (c : Call) : St := { s with trace := s.trace ++ [c] }

/-- How an invocation ends: the handler returns, or the process is ended by `log.Fatal`. -/
inductive Outcome where
  | returned
  | fatal
deriving DecidableEq, Repr

/-- The observable result of one invocation. -/
structure Run where
  trace : List Call
  remote : Remote
  outcome : Outcome
deriving DecidableEq, Repr

def St.returned (s : St) : Run := ⟨s.trace, s.remote, Outcome.returned⟩

def St.fatal (s : St) : Run := ⟨s.trace, s.remote, Outcome.fatal⟩

/-- Whether a label list holds a label with the given name. -/
def hasLabelNamed (labels : List Label) (name : String) : Bool :=
  labels.any (fun l => l.GetName == name)

/-- The remote effect of adding labels: every name not yet on the issue is inserted. -/
def insertLabels (labels : List Label) : List String → List Label
  | [] => labels
  | n :: ns =>
    if hasLabelNamed labels n then insertLabels labels ns
    else insertLabels (labels ++ [⟨some n⟩]) ns

/-- The remote effect of removing a label: every label of that name is deleted. -/
def deleteLabel (labels : List Label) (name : String) : List Label :=
  labels.filter (fun l => !(l.GetName == name))

/-- The call `client.PullRequests.ListCommits`: the commit list, or `none` on an error. -/
def ListCommits (env : Env) (s : St) (owner repo : String) (number : Int) (page : Int) :
    St × Option (List RepositoryCommit) :=
  let c := Call.ListCommits owner repo number page
  if env.fails c then (s.call c, none) else (s.call c, some s.remote.commits)

/-- The call `client.Issues.Get`: the issue with its current labels, or `none` on an error. -/
def IssuesGet (env : Env) (s : St) (owner repo : String) (number : Int) :
    St × Option Issue :=
  let c := Call.GetIssue owner repo number
  if env.fails c then (s.call c, none) else (s.call c, some ⟨s.remote.labels⟩)

/-- The call `client.Issues.AddLabelsToIssue`: `true` stands for a non-nil error. -/
def AddLabelsToIssue (env : Env) (s : St) (owner repo : String) (number : Int)
    (labels : List String) : St × Bool :=
  let c := Call.AddLabelsToIssue owner repo number labels
  if env.fails c then (s.call c, true)
  else ({ s.call c with remote := { s.remote with labels := insertLabels s.remote.labels labels } },
        false)

/-- The call `client.Issues.RemoveLabelForIssue`: `true` stands for a non-nil error. -/
def RemoveLabelForIssue (env : Env) (s : St) (owner repo : String) (number : Int)
    (label : String) : St × Bool :=
  let c := Call.RemoveLabelForIssue owner repo number label
  if env.fails c then (s.call c, true)
  else ({ s.call c with remote := { s.remote with labels := deleteLabel s.remote.labels label } },
        false)

/-- The call `client.Issues.CreateComment`: `true` stands for a non-nil error. -/
def CreateComment (env : Env) (s : St) (owner repo : String) (number : Int)
    (body : String) : St × Bool :=
  let c := Call.CreateComment owner repo number body
  if env.fails c then (s.call c, true)
  else ({ s.call c with remote := { s.remote with comments := s.remote.comments ++ [body] } },
        false)

/-! ## Library functions -/

/-- The search behind `strings.Contains` on character lists: try every start position. -/
def containsList : List Char → List Char → Bool
  | [], sub => sub.isEmpty
  | c :: s, sub => sub.isPrefixOf (c :: s) || containsList s sub

/-- The function `strings.Contains`: whether `substr` is within `s`. -/
def Contains (s substr : String) : Bool := containsList s.toList substr.toList

/-- The predicate `unicode.IsSpace`: the Latin-1 spaces and the code points with the
Unicode White_Space property. -/
def IsSpace (c : Char) : Bool :=
  let n := c.toNat
  n == 0x09 || n == 0x0A || n == 0x0B || n == 0x0C || n == 0x0D || n == 0x20 ||
  n == 0x85 || n == 0xA0 || n == 0x1680 || (0x2000 ≤ n && n ≤ 0x200A) ||
  n == 0x2028 || n == 0x2029 || n == 0x202F || n == 0x205F || n == 0x3000

/-- The function `strings.TrimSpace`: leading and trailing white space removed. -/
def TrimSpace (s : String) : String :=
  String.mk ((s.toList.dropWhile IsSpace).rdropWhile IsSpace)

/-- The builtin `len` on a string: its length in bytes. -/
def len (s : String) : Nat := s.utf8ByteSize

/-! ## The handler -/

def isSigned (msg : String) : Bool :=
  Contains msg "Signed-off-by:"

def hasDescription (pr : PullRequest) : Bool :=
  len (TrimSpace pr.Body) > 0

/-- The loop of `hasUnsigned` over the listed commits, started from the flag `acc`. -/
def hasUnsignedLoop (acc : Bool) : List RepositoryCommit → Bool
  | [] => acc
  | commit :: rest =>
    match commit.Commit with
    | some c =>
      match c.Message with
      | some msg =>
        if isSigned msg == false then hasUnsignedLoop true rest
        else hasUnsignedLoop acc rest
      | none => hasUnsignedLoop acc rest
    | none => hasUnsignedLoop acc rest

/-- The function `hasUnsigned`.  A failed listing ends the process at `log.Fatalf`
(`none`); otherwise the flag is returned with the nil error of the listing. -/
def hasUnsigned (env : Env) (s : St) (req : PullRequestOuter) :
    St × Option (Bool × Option String) :=
  match ListCommits env s req.Repository.Owner.Login req.Repository.Name
      req.PullRequest.Number 0 with
  | (s1, none) => (s1, none)
  | (s1, some commits) => (s1, some (hasUnsignedLoop false commits, none))

def hasNoDcoLabel (issue : Option Issue) : Bool :=
  match issue with
  | some i => i.Labels.any (fun label => label.GetName == "no-dco")
  | none => false

/-- The function `getAccessToken`: the token and the optional error it returns. -/
def getAccessToken (env : Env) (s : St) (config : Config) (installationID : Int) :
    St × String × Option String :=
  let token := env.Getenv "personal_access_token"
  if len token == 0 then
    let s1 := s.call (Call.MakeAccessTokenForInstallation config.ApplicationID installationID
      config.PrivateKey)
    match env.exchange config.ApplicationID installationID config.PrivateKey with
    | (_, some tokenErr) => (s1, "", some tokenErr)
    | (installationToken, none) => (s1, installationToken, none)
  else (s, token, none)

/-- The comment posted when a commit is not signed off. -/
def unsignedCommentBody (contributingURL : String) : String :=
  "Thank you for your contribution. I've just checked and your commit doesn't appear to be signed-off. That's something we need before your Pull Request can be merged. Please see our [contributing guide](" ++ contributingURL ++ ").\nTip: if you only have one commit so far then run: `git commit --amend --sign-off` and then `git push --force`."

/-- The comment posted when the description is missing. -/
def descriptionCommentBody (contributingURL : String) : String :=
  "Thank you for your contribution. I've just checked and your Pull Request doesn't appear to have any description.\nThat's something we need before your Pull Request can be merged. Please see our [contributing guide](" ++ contributingURL ++ ")."

/-- The first-time-contributor step of `HandlePullRequest`: `true` stands for the process
having ended at `log.Fatalf`. -/
def labelNewContributor (env : Env) (s : St) (req : PullRequestOuter) : St × Bool :=
  if req.Action == openedPRAction then
    if req.PullRequest.FirstTimeContributor == true then
      AddLabelsToIssue env s req.Repository.Owner.Login req.Repository.Name
        req.PullRequest.Number ["new-contributor"]
    else (s, false)
  else (s, false)

/-- The branch of `HandlePullRequest` taken when a commit is unsigned. -/
def applyNoDco (env : Env) (s : St) (req : PullRequestOuter) (contributingURL : String) : Run :=
  match IssuesGet env s req.Repository.Owner.Login req.Repository.Name
      req.PullRequest.Number with
  | (s1, none) => s1.fatal
  | (s1, some issue) =>
    if hasNoDcoLabel (some issue) == false then
      match AddLabelsToIssue env s1 req.Repository.Owner.Login req.Repository.Name
          req.PullRequest.Number ["no-dco"] with
      | (s2, true) => s2.fatal
      | (s2, false) =>
        match CreateComment env s2 req.Repository.Owner.Login req.Repository.Name
            req.PullRequest.Number (unsignedCommentBody contributingURL) with
        | (s3, true) => s3.fatal
        | (s3, false) => s3.returned
    else s1.returned

/-- The branch of `HandlePullRequest` taken when every inspected commit is signed. -/
def clearNoDco (env : Env) (s : St) (req : PullRequestOuter) : Run :=
  match IssuesGet env s req.Repository.Owner.Login req.Repository.Name
      req.PullRequest.Number with
  | (s1, none) => s1.fatal
  | (s1, some issue) =>
    if hasNoDcoLabel (some issue) then
      match RemoveLabelForIssue env s1 req.Repository.Owner.Login req.Repository.Name
          req.PullRequest.Number "no-dco" with
      | (s2, true) => s2.fatal
      | (s2, false) => s2.returned
    else s1.returned

/-- The function `HandlePullRequest`, run against an environment and a remote state. -/
def HandlePullRequest (env : Env) (remote : Remote) (req : PullRequestOuter)
    (contributingURL : String) (config : Config) : Run :=
  match getAccessToken env ⟨[], remote⟩ config req.Installation.ID with
  | (s0, _, some _) => s0.returned
  | (s0, _, none) =>
    match hasUnsigned env s0 req with
    | (s1, none) => s1.fatal
    | (s1, some (hasUnsignedCommits, err)) =>
      match labelNewContributor env s1 req with
      | (s2, true) => s2.fatal
      | (s2, false) =>
        match err with
        | some _ => s2.fatal
        | none =>
          if hasUnsignedCommits then applyNoDco env s2 req contributingURL
          else clearNoDco env s2 req

/-- The function `VerifyPullRequestDescription`, run against an environment and a remote
state. -/
def VerifyPullRequestDescription (env : Env) (remote : Remote) (req : PullRequestOuter)
    (contributingURL : String) (config : Config) : Run :=
  match getAccessToken env ⟨[], remote⟩ config req.Installation.ID with
  | (s0, _, some _) => s0.returned
  | (s0, _, none) =>
    if req.Action == openedPRAction then
      if !hasDescription req.PullRequest then
        match AddLabelsToIssue env s0 req.Repository.Owner.Login req.Repository.Name
            req.PullRequest.Number [prDescriptionRequiredLabel] with
        | (s1, true) => s1.fatal
        | (s1, false) =>
          match CreateComment env s1 req.Repository.Owner.Login req.Repository.Name
              req.PullRequest.Number (descriptionCommentBody contributingURL) with
          | (s2, true) => s2.fatal
          | (s2, false) => s2.returned
      else s0.returned
    else s0.returned

/-! ## Vocabulary of the properties -/

/-- Whether a call is a label mutation: an `AddLabels` or a `RemoveLabel` call. -/
def Call.isLabelMutation : Call → Bool
  | Call.AddLabelsToIssue _ _ _ _ => true
  | Call.RemoveLabelForIssue _ _ _ _ => true
  | _ => false

/-- Whether a call is a `RemoveLabel` call. -/
def Call.isRemoveLabel : Call → Bool
  | Call.RemoveLabelForIssue _ _ _ _ => true
  | _ => false

/-- Whether a call is a `CreateComment` call. -/
def Call.isCreateComment : Call → Bool
  | Call.CreateComment _ _ _ _ => true
  | _ => false

/-- Whether a call is the label fetch. -/
def Call.isGetIssue : Call → Bool
  | Call.GetIssue _ _ _ => true
  | _ => false

/-- Whether a call adds the label of the given name. -/
def Call.addsLabel (name : String) : Call → Bool
  | Call.AddLabelsToIssue _ _ _ labels => labels.contains name
  | _ => false

/-- Whether a call adds or removes the label of the given name. -/
def Call.mutatesLabel (name : String) : Call → Bool
  | Call.AddLabelsToIssue _ _ _ labels => labels.contains name
  | Call.RemoveLabelForIssue _ _ _ label => label == name
  | _ => false

/-- Whether a call goes to the hosting API (every call but the token exchange). -/
def Call.isApiCall : Call → Bool
  | Call.MakeAccessTokenForInstallation _ _ _ => false
  | _ => true

/-- Whether a call comes back with an error in the given environment: the exchange by its
own result, every API call by the fault oracle. -/
def callFails (env : Env) : Call → Bool
  | Call.MakeAccessTokenForInstallation appID installationID privateKey =>
    (env.exchange appID installationID privateKey).2.isSome
  | c => env.fails c

/-- Decidable form of "every mutation of the label is preceded by a label fetch": `seen`
says whether a fetch has already happened. -/
def fetchedBefore (name : String) (seen : Bool) : List Call → Bool
  | [] => true
  | c :: cs => (!(c.mutatesLabel name) || seen) && fetchedBefore name (seen || c.isGetIssue) cs

/-- Decidable form of "a failing call is the last call of the trace". -/
def stopsAtFailure (env : Env) : List Call → Bool
  | [] => true
  | c :: cs => (cs.isEmpty || !(callFails env c)) && stopsAtFailure env cs

/-- The transition table of the sign-off enforcer, in the words of its specification: the
calls made after the label fetch, from whether the `no-dco` label is present and whether
there is an unsigned commit. -/
def transitionTable (req : PullRequestOuter) (contributingURL : String) :
    Bool → Bool → List Call
  | false, true =>
    [Call.AddLabelsToIssue req.Repository.Owner.Login req.Repository.Name
        req.PullRequest.Number ["no-dco"],
     Call.CreateComment req.Repository.Owner.Login req.Repository.Name
        req.PullRequest.Number (unsignedCommentBody contributingURL)]
  | true, true => []
  | true, false =>
    [Call.RemoveLabelForIssue req.Repository.Owner.Login req.Repository.Name
        req.PullRequest.Number "no-dco"]
  | false, false => []

/-! ## Concrete inputs -/

/-- A commit carrying the given message. -/
def commitWith (msg : String) : RepositoryCommit := ⟨some ⟨some msg⟩⟩

/-- A commit whose message pointer is nil. -/
def commitNoMessage : RepositoryCommit := ⟨some ⟨none⟩⟩

/-- A label of the given name. -/
def labelNamed (name : String) : Label := ⟨some name⟩

/-- Pull request 42 of `alexellis/derek`, installation 7. -/
def sampleReq (action body : String) (firstTime : Bool) : PullRequestOuter :=
  ⟨action, ⟨⟨"alexellis"⟩, "derek"⟩, ⟨42, body, firstTime⟩, ⟨7⟩⟩

def sampleConfig : Config := ⟨"1234", "private-key"⟩

def sampleURL : String := "https://example.com/CONTRIBUTING.md"

/-- No override token, a working exchange, and no failing API call. -/
def envOk : Env :=
  ⟨fun _ => none, fun _ _ _ => ("installation-token", none), fun _ => false⟩

/-- The override token `abc123` is set; the exchange would fail if it were invoked. -/
def envOverride : Env :=
  ⟨fun k => if k == "personal_access_token" then some "abc123" else none,
   fun _ _ _ => ("", some "exchange failed"), fun _ => false⟩

/-- No override token and a failing exchange. -/
def envNoToken : Env :=
  ⟨fun _ => none, fun _ _ _ => ("", some "exchange failed"), fun _ => false⟩

/-- As `envOk`, but the commit listing fails. -/
def envListFails : Env :=
  ⟨fun _ => none, fun _ _ _ => ("installation-token", none),
   fun c => match c with
     | Call.ListCommits _ _ _ _ => true
     | _ => false⟩

/-- As `envOk`, but every label addition fails. -/
def envAddFails : Env :=
  ⟨fun _ => none, fun _ _ _ => ("installation-token", none),
   fun c => match c with
     | Call.AddLabelsToIssue _ _ _ _ => true
     | _ => false⟩

/-! ## Library facts -/

theorem containsList_iff (s sub : List Char) : containsList s sub = true ↔ sub <:+: s := by
  induction s with
  | nil =>
    cases sub with
    | nil => simp [containsList]
    | cons a t => simp [containsList]
  | cons c s ih =>
    simp only [containsList, Bool.or_eq_true, ih, List.isPrefixOf_iff_prefix]
    rw [List.infix_cons_iff]

theorem len_eq_zero_iff (s : String) : len s = 0 ↔ s = "" := by
  rcases s with ⟨l⟩
  cases l with
  | nil => simp [len, String.utf8ByteSize, String.utf8ByteSize.go]
  | cons c cs =>
    have hc := Char.utf8Size_pos c
    simp only [len, String.utf8ByteSize, String.utf8ByteSize.go]
    constructor
    · intro h; omega
    · intro h
      exact absurd (congrArg String.data h) (by simp)

theorem len_pos_iff (s : String) : 0 < len s ↔ s.toList ≠ [] := by
  rw [Nat.pos_iff_ne_zero, Ne, len_eq_zero_iff]
  rcases s with ⟨l⟩
  constructor
  · intro h h2
    apply h
    simp only [String.toList] at h2
    subst h2
    rfl
  · intro h h2
    apply h
    rw [h2]
    rfl

theorem isSigned_iff (msg : String) :
    isSigned msg = true ↔ "Signed-off-by:".toList <:+: msg.toList := by
  simp only [isSigned, Contains, containsList_iff]

theorem hasUnsignedLoop_iff (acc : Bool) (commits : List RepositoryCommit) :
    hasUnsignedLoop acc commits = true ↔
      acc = true ∨ ∃ c ∈ commits, ∃ cm m, c.Commit = some cm ∧ cm.Message = some m ∧
        isSigned m = false := by
  induction commits generalizing acc with
  | nil => simp [hasUnsignedLoop]
  | cons commit rest ih =>
    rcases commit with ⟨_ | ⟨_ | msg⟩⟩
    · simp [hasUnsignedLoop, ih]
    · simp [hasUnsignedLoop, ih]
    · by_cases h : isSigned msg = true
      · simp [hasUnsignedLoop, ih, h]
      · simp only [Bool.not_eq_true] at h
        simp [hasUnsignedLoop, ih, h]

/-! ## Label sets -/

theorem hasLabelNamed_insert (ls : List Label) (n m : String) :
    hasLabelNamed (insertLabels ls [n]) m = (hasLabelNamed ls m || n == m) := by
  unfold insertLabels
  by_cases h : hasLabelNamed ls n = true
  · simp only [h, if_true, insertLabels]
    by_cases hnm : n = m
    · subst hnm; simp [h]
    · simp [hnm]
  · simp only [h, insertLabels]
    simp [hasLabelNamed, Label.GetName]

theorem hasLabelNamed_delete_self (ls : List Label) (n : String) :
    hasLabelNamed (deleteLabel ls n) n = false := by
  rw [← Bool.not_eq_true]
  simp [hasLabelNamed, deleteLabel]

theorem hasLabelNamed_iff (ls : List Label) (n : String) :
    hasLabelNamed ls n = true ↔ ∃ l ∈ ls, l.GetName = n := by
  simp [hasLabelNamed]

theorem hasLabelNamed_delete_other (ls : List Label) (n m : String) (h : m ≠ n) :
    hasLabelNamed (deleteLabel ls n) m = hasLabelNamed ls m := by
  induction ls with
  | nil => rfl
  | cons l ls ih =>
    simp only [hasLabelNamed, deleteLabel, List.any_cons] at ih ⊢
    by_cases hl : l.GetName = n
    · simp [List.filter_cons, hl, ih, Ne.symm h]
    · simp [List.filter_cons, hl, ih]

theorem hasNoDcoLabel_some (ls : List Label) :
    hasNoDcoLabel (some ⟨ls⟩) = hasLabelNamed ls "no-dco" := rfl

/-! ## Trace checkers and run equations -/

theorem fetchedBefore_sound (name : String) (tr : List Call) :
    ∀ seen, fetchedBefore name seen tr = true →
    ∀ pre c post, tr = pre ++ c :: post → c.mutatesLabel name = true →
      seen = true ∨ ∃ g ∈ pre, g.isGetIssue = true := by
  induction tr with
  | nil =>
    intro seen _ pre c post h
    simp at h
  | cons a tr ih =>
    intro seen h pre c post hsplit hc
    simp only [fetchedBefore, Bool.and_eq_true, Bool.or_eq_true, Bool.not_eq_true'] at h
    cases pre with
    | nil =>
      simp only [List.nil_append, List.cons.injEq] at hsplit
      obtain ⟨rfl, -⟩ := hsplit
      rcases h.1 with h1 | h1
      · rw [hc] at h1; exact Bool.noConfusion h1
      · exact Or.inl h1
    | cons b pre =>
      simp only [List.cons_append, List.cons.injEq] at hsplit
      obtain ⟨rfl, rfl⟩ := hsplit
      rcases ih _ h.2 pre c post rfl hc with h2 | ⟨g, hg, hg2⟩
      · simp only [Bool.or_eq_true] at h2
        rcases h2 with h2 | h2
        · exact Or.inl h2
        · exact Or.inr ⟨a, List.mem_cons_self _ _, h2⟩
      · exact Or.inr ⟨g, List.mem_cons_of_mem _ hg, hg2⟩

theorem stopsAtFailure_sound (env : Env) (tr : List Call) :
    stopsAtFailure env tr = true →
    ∀ pre c post, tr = pre ++ c :: post → callFails env c = true → post = [] := by
  induction tr with
  | nil =>
    intro _ pre c post h
    simp at h
  | cons a tr ih =>
    intro h pre c post hsplit hc
    simp only [stopsAtFailure, Bool.and_eq_true, Bool.or_eq_true, Bool.not_eq_true',
      List.isEmpty_iff] at h
    cases pre with
    | nil =>
      simp only [List.nil_append, List.cons.injEq] at hsplit
      obtain ⟨rfl, rfl⟩ := hsplit
      rcases h.1 with h1 | h1
      · exact h1
      · rw [hc] at h1; exact Bool.noConfusion h1
    | cons b pre =>
      simp only [List.cons_append, List.cons.injEq] at hsplit
      obtain ⟨rfl, rfl⟩ := hsplit
      exact ih h.2 pre c post rfl hc

theorem getAccessToken_cases (env : Env) (remote : Remote) (config : Config) (id : Int) :
    (∃ tok, getAccessToken env ⟨[], remote⟩ config id = (⟨[], remote⟩, tok, none)) ∨
    (∃ tok, getAccessToken env ⟨[], remote⟩ config id =
        (⟨[Call.MakeAccessTokenForInstallation config.ApplicationID id config.PrivateKey],
          remote⟩, tok, none) ∧
      (env.exchange config.ApplicationID id config.PrivateKey).2 = none) ∨
    (∃ e, getAccessToken env ⟨[], remote⟩ config id =
        (⟨[Call.MakeAccessTokenForInstallation config.ApplicationID id config.PrivateKey],
          remote⟩, "", some e) ∧
      (env.exchange config.ApplicationID id config.PrivateKey).2 = some e) := by
  unfold getAccessToken
  by_cases h : len (env.Getenv "personal_access_token") = 0
  · simp only [h, beq_self_eq_true, if_true]
    rcases hx : env.exchange config.ApplicationID id config.PrivateKey with ⟨t, _ | e⟩
    · exact Or.inr (Or.inl ⟨t, rfl, rfl⟩)
    · exact Or.inr (Or.inr ⟨e, rfl, rfl⟩)
  · exact Or.inl ⟨env.Getenv "personal_access_token", by simp [h]⟩

theorem hasUnsigned_eq (env : Env) (s : St) (req : PullRequestOuter) :
    hasUnsigned env s req =
      if env.fails (Call.ListCommits req.Repository.Owner.Login req.Repository.Name
          req.PullRequest.Number 0) = true then
        (⟨s.trace ++ [Call.ListCommits req.Repository.Owner.Login req.Repository.Name
          req.PullRequest.Number 0], s.remote⟩, none)
      else
        (⟨s.trace ++ [Call.ListCommits req.Repository.Owner.Login req.Repository.Name
          req.PullRequest.Number 0], s.remote⟩,
         some (hasUnsignedLoop false s.remote.commits, none)) := by
  by_cases h : env.fails (Call.ListCommits req.Repository.Owner.Login req.Repository.Name
      req.PullRequest.Number 0) = true <;>
    simp [hasUnsigned, ListCommits, St.call, h]

theorem labelNewContributor_eq (env : Env) (s : St) (req : PullRequestOuter) :
    labelNewContributor env s req =
      if req.Action = openedPRAction ∧ req.PullRequest.FirstTimeContributor = true then
        if env.fails (Call.AddLabelsToIssue req.Repository.Owner.Login req.Repository.Name
            req.PullRequest.Number ["new-contributor"]) = true then
          (⟨s.trace ++ [Call.AddLabelsToIssue req.Repository.Owner.Login req.Repository.Name
            req.PullRequest.Number ["new-contributor"]], s.remote⟩, true)
        else
          (⟨s.trace ++ [Call.AddLabelsToIssue req.Repository.Owner.Login req.Repository.Name
            req.PullRequest.Number ["new-contributor"]],
            { s.remote with labels := insertLabels s.remote.labels ["new-contributor"] }⟩, false)
      else (s, false) := by
  unfold labelNewContributor AddLabelsToIssue St.call
  by_cases h1 : req.Action = openedPRAction <;>
    by_cases h2 : req.PullRequest.FirstTimeContributor = true <;>
    simp [h1, h2]

theorem applyNoDco_eq (env : Env) (s : St) (req : PullRequestOuter) (url : String) :
    applyNoDco env s req url =
      if env.fails (Call.GetIssue req.Repository.Owner.Login req.Repository.Name
          req.PullRequest.Number) = true then
        ⟨s.trace ++ [Call.GetIssue req.Repository.Owner.Login req.Repository.Name
          req.PullRequest.Number], s.remote, Outcome.fatal⟩
      else if hasNoDcoLabel (some ⟨s.remote.labels⟩) = true then
        ⟨s.trace ++ [Call.GetIssue req.Repository.Owner.Login req.Repository.Name
          req.PullRequest.Number], s.remote, Outcome.returned⟩
      else if env.fails (Call.AddLabelsToIssue req.Repository.Owner.Login req.Repository.Name
          req.PullRequest.Number ["no-dco"]) = true then
        ⟨s.trace ++ [Call.GetIssue req.Repository.Owner.Login req.Repository.Name
          req.PullRequest.Number] ++ [Call.AddLabelsToIssue req.Repository.Owner.Login
          req.Repository.Name req.PullRequest.Number ["no-dco"]], s.remote, Outcome.fatal⟩
      else if env.fails (Call.CreateComment req.Repository.Owner.Login req.Repository.Name
          req.PullRequest.Number (unsignedCommentBody url)) = true then
        ⟨s.trace ++ [Call.GetIssue req.Repository.Owner.Login req.Repository.Name
          req.PullRequest.Number] ++ [Call.AddLabelsToIssue req.Repository.Owner.Login
          req.Repository.Name req.PullRequest.Number ["no-dco"]] ++
          [Call.CreateComment req.Repository.Owner.Login req.Repository.Name
          req.PullRequest.Number (unsignedCommentBody url)],
          { s.remote with labels := insertLabels s.remote.labels ["no-dco"] }, Outcome.fatal⟩
      else
        ⟨s.trace ++ [Call.GetIssue req.Repository.Owner.Login req.Repository.Name
          req.PullRequest.Number] ++ [Call.AddLabelsToIssue req.Repository.Owner.Login
          req.Repository.Name req.PullRequest.Number ["no-dco"]] ++
          [Call.CreateComment req.Repository.Owner.Login req.Repository.Name
          req.PullRequest.Number (unsignedCommentBody url)],
          { s.remote with labels := insertLabels s.remote.labels ["no-dco"],
                          comments := s.remote.comments ++ [unsignedCommentBody url] },
          Outcome.returned⟩ := by
  by_cases h1 : env.fails (Call.GetIssue req.Repository.Owner.Login req.Repository.Name
      req.PullRequest.Number) = true <;>
  by_cases h2 : hasNoDcoLabel (some ⟨s.remote.labels⟩) = true <;>
  by_cases h3 : env.fails (Call.AddLabelsToIssue req.Repository.Owner.Login req.Repository.Name
      req.PullRequest.Number ["no-dco"]) = true <;>
  by_cases h4 : env.fails (Call.CreateComment req.Repository.Owner.Login req.Repository.Name
      req.PullRequest.Number (unsignedCommentBody url)) = true <;>
  simp [applyNoDco, IssuesGet, AddLabelsToIssue, CreateComment, St.call, St.fatal, St.returned,
    h1, h2, h3, h4]

theorem clearNoDco_eq (env : Env) (s : St) (req : PullRequestOuter) :
    clearNoDco env s req =
      if env.fails (Call.GetIssue req.Repository.Owner.Login req.Repository.Name
          req.PullRequest.Number) = true then
        ⟨s.trace ++ [Call.GetIssue req.Repository.Owner.Login req.Repository.Name
          req.PullRequest.Number], s.remote, Outcome.fatal⟩
      else if hasNoDcoLabel (some ⟨s.remote.labels⟩) = true then
        if env.fails (Call.RemoveLabelForIssue req.Repository.Owner.Login req.Repository.Name
            req.PullRequest.Number "no-dco") = true then
          ⟨s.trace ++ [Call.GetIssue req.Repository.Owner.Login req.Repository.Name
            req.PullRequest.Number] ++ [Call.RemoveLabelForIssue req.Repository.Owner.Login
            req.Repository.Name req.PullRequest.Number "no-dco"], s.remote, Outcome.fatal⟩
        else
          ⟨s.trace ++ [Call.GetIssue req.Repository.Owner.Login req.Repository.Name
            req.PullRequest.Number] ++ [Call.RemoveLabelForIssue req.Repository.Owner.Login
            req.Repository.Name req.PullRequest.Number "no-dco"],
            { s.remote with labels := deleteLabel s.remote.labels "no-dco" }, Outcome.returned⟩
      else
        ⟨s.trace ++ [Call.GetIssue req.Repository.Owner.Login req.Repository.Name
          req.PullRequest.Number], s.remote, Outcome.returned⟩ := by
  by_cases h1 : env.fails (Call.GetIssue req.Repository.Owner.Login req.Repository.Name
      req.PullRequest.Number) = true <;>
  by_cases h2 : hasNoDcoLabel (some ⟨s.remote.labels⟩) = true <;>
  by_cases h3 : env.fails (Call.RemoveLabelForIssue req.Repository.Owner.Login
      req.Repository.Name req.PullRequest.Number "no-dco") = true <;>
  simp [clearNoDco, IssuesGet, RemoveLabelForIssue, St.call, St.fatal, St.returned, h1, h2, h3]

theorem HandlePullRequest_eq_of_token (env : Env) (remote : Remote) (req : PullRequestOuter)
    (url : String) (config : Config) (s0 : St) (tok : String)
    (h : getAccessToken env ⟨[], remote⟩ config req.Installation.ID = (s0, tok, none)) :
    HandlePullRequest env remote req url config =
      if env.fails (Call.ListCommits req.Repository.Owner.Login req.Repository.Name
          req.PullRequest.Number 0) = true then
        ⟨s0.trace ++ [Call.ListCommits req.Repository.Owner.Login req.Repository.Name
          req.PullRequest.Number 0], s0.remote, Outcome.fatal⟩
      else if req.Action = openedPRAction ∧ req.PullRequest.FirstTimeContributor = true then
        if env.fails (Call.AddLabelsToIssue req.Repository.Owner.Login req.Repository.Name
            req.PullRequest.Number ["new-contributor"]) = true then
          ⟨s0.trace ++ [Call.ListCommits req.Repository.Owner.Login req.Repository.Name
            req.PullRequest.Number 0] ++ [Call.AddLabelsToIssue req.Repository.Owner.Login
            req.Repository.Name req.PullRequest.Number ["new-contributor"]], s0.remote,
            Outcome.fatal⟩
        else if hasUnsignedLoop false s0.remote.commits = true then
          applyNoDco env ⟨s0.trace ++ [Call.ListCommits req.Repository.Owner.Login
            req.Repository.Name req.PullRequest.Number 0] ++
            [Call.AddLabelsToIssue req.Repository.Owner.Login
            req.Repository.Name req.PullRequest.Number ["new-contributor"]],
            { s0.remote with labels := insertLabels s0.remote.labels ["new-contributor"] }⟩
            req url
        else
          clearNoDco env ⟨s0.trace ++ [Call.ListCommits req.Repository.Owner.Login
            req.Repository.Name req.PullRequest.Number 0] ++
            [Call.AddLabelsToIssue req.Repository.Owner.Login
            req.Repository.Name req.PullRequest.Number ["new-contributor"]],
            { s0.remote with labels := insertLabels s0.remote.labels ["new-contributor"] }⟩
            req
      else if hasUnsignedLoop false s0.remote.commits = true then
        applyNoDco env ⟨s0.trace ++ [Call.ListCommits req.Repository.Owner.Login
          req.Repository.Name req.PullRequest.Number 0], s0.remote⟩ req url
      else
        clearNoDco env ⟨s0.trace ++ [Call.ListCommits req.Repository.Owner.Login
          req.Repository.Name req.PullRequest.Number 0], s0.remote⟩ req := by
  unfold HandlePullRequest
  rw [h]
  simp only [hasUnsigned_eq, labelNewContributor_eq]
  by_cases h1 : env.fails (Call.ListCommits req.Repository.Owner.Login req.Repository.Name
      req.PullRequest.Number 0) = true
  · simp [h1, St.fatal]
  · by_cases h2 : req.Action = openedPRAction ∧ req.PullRequest.FirstTimeContributor = true
    · by_cases h3 : env.fails (Call.AddLabelsToIssue req.Repository.Owner.Login
          req.Repository.Name req.PullRequest.Number ["new-contributor"]) = true
      · simp [h1, h2, h3, St.fatal]
      · by_cases h4 : hasUnsignedLoop false s0.remote.commits = true <;>
          simp [h1, h2, h3, h4]
    · by_cases h4 : hasUnsignedLoop false s0.remote.commits = true <;>
        simp [h1, h2, h4]

theorem HandlePullRequest_eq_of_token_error (env : Env) (remote : Remote)
    (req : PullRequestOuter) (url : String) (config : Config) (s0 : St) (tok e : String)
    (h : getAccessToken env ⟨[], remote⟩ config req.Installation.ID = (s0, tok, some e)) :
    HandlePullRequest env remote req url config = ⟨s0.trace, s0.remote, Outcome.returned⟩ := by
  unfold HandlePullRequest
  rw [h]
  rfl

/-! ## Sign-off detection -/

/-- C1: when the commit listing succeeds and every listed commit has a message that
contains the literal substring `Signed-off-by:`, `hasUnsigned` returns false (with a nil
error); the empty listing is included. -/
theorem hasUnsigned_all_signed (env : Env) (s : St) (req : PullRequestOuter)
    (hList : env.fails (Call.ListCommits req.Repository.Owner.Login req.Repository.Name
      req.PullRequest.Number 0) = false)
    (hSigned : ∀ c ∈ s.remote.commits, ∃ cm m, c.Commit = some cm ∧ cm.Message = some m ∧
      "Signed-off-by:".toList <:+: m.toList) :
    (hasUnsigned env s req).2 = some (false, none) := by
  have h : hasUnsignedLoop false s.remote.commits = false := by
    rw [← Bool.not_eq_true, hasUnsignedLoop_iff]
    rintro (h | ⟨c, hc, cm, m, h1, h2, h3⟩)
    · exact Bool.noConfusion h
    · obtain ⟨cm', m', h1', h2', h3'⟩ := hSigned c hc
      rw [h1] at h1'
      cases h1'
      rw [h2] at h2'
      cases h2'
      rw [← isSigned_iff, h3] at h3'
      exact Bool.noConfusion h3'
  simp [hasUnsigned, ListCommits, hList, h]

theorem hasUnsigned_all_signed_witness :
    (hasUnsigned envOk ⟨[], ⟨[commitWith "feat: x\nSigned-off-by: a <a@b.com>"], [], []⟩⟩
      (sampleReq "synchronize" "" false)).2 = some (false, none) ∧
    (hasUnsigned envOk ⟨[], ⟨[], [], []⟩⟩ (sampleReq "synchronize" "" false)).2 =
      some (false, none) :=
  ⟨hasUnsigned_all_signed envOk _ _ rfl (by
      intro c hc
      rw [List.mem_singleton] at hc
      subst hc
      exact ⟨_, _, rfl, rfl, (isSigned_iff _).1 (by decide)⟩),
   hasUnsigned_all_signed envOk _ _ rfl (by intro c hc; cases hc)⟩

/-- C2, refuted as stated: a listing whose only commit has a nil message makes
`hasUnsigned` return false, because the loop skips commits without a message. -/
theorem hasUnsigned_nil_message_counterexample :
    commitNoMessage ∈ [commitNoMessage] ∧
    (∃ cm, commitNoMessage.Commit = some cm ∧ cm.Message = none) ∧
    envOk.fails (Call.ListCommits "alexellis" "derek" 42 0) = false ∧
    (hasUnsigned envOk ⟨[], ⟨[commitNoMessage], [], []⟩⟩
      (sampleReq "synchronize" "" false)).2 = some (false, none) := by
  refine ⟨List.mem_singleton.2 rfl, ⟨⟨none⟩, rfl, rfl⟩, rfl, ?_⟩
  decide

/-- C2, amended: when the commit listing succeeds and some listed commit has a message
that is present and lacks the substring `Signed-off-by:`, `hasUnsigned` returns true (with
a nil error). -/
theorem hasUnsigned_some_unsigned (env : Env) (s : St) (req : PullRequestOuter)
    (hList : env.fails (Call.ListCommits req.Repository.Owner.Login req.Repository.Name
      req.PullRequest.Number 0) = false)
    (hUnsigned : ∃ c ∈ s.remote.commits, ∃ cm m, c.Commit = some cm ∧ cm.Message = some m ∧
      ¬ "Signed-off-by:".toList <:+: m.toList) :
    (hasUnsigned env s req).2 = some (true, none) := by
  have h : hasUnsignedLoop false s.remote.commits = true := by
    rw [hasUnsignedLoop_iff]
    obtain ⟨c, hc, cm, m, h1, h2, h3⟩ := hUnsigned
    refine Or.inr ⟨c, hc, cm, m, h1, h2, ?_⟩
    rw [← isSigned_iff, Bool.not_eq_true] at h3
    exact h3
  simp [hasUnsigned, ListCommits, hList, h]

theorem hasUnsigned_some_unsigned_witness :
    (hasUnsigned envOk
      ⟨[], ⟨[commitWith "feat: x\nSigned-off-by: a <a@b.com>", commitWith "fix bug"], [], []⟩⟩
      (sampleReq "synchronize" "" false)).2 = some (true, none) :=
  hasUnsigned_some_unsigned envOk _ _ rfl
    ⟨commitWith "fix bug", by simp, ⟨some "fix bug"⟩, "fix bug", rfl, rfl,
      fun h => absurd ((isSigned_iff _).2 h) (by decide)⟩

/-! ## Token resolution -/

/-- C9: a set, non-empty override token is returned verbatim and the exchange is not
invoked (the trace is unchanged); when the override is absent or empty the exchange is
invoked exactly once with the configured application id, the supplied installation id and
the configured private key, its token is returned when it reports no error, and its error
is returned with an empty token otherwise. -/
theorem getAccessToken_spec (env : Env) (s : St) (config : Config) (installationID : Int) :
    (∀ tok, env.vars "personal_access_token" = some tok → tok ≠ "" →
      getAccessToken env s config installationID = (s, tok, none)) ∧
    ((env.vars "personal_access_token" = none ∨ env.vars "personal_access_token" = some "") →
      (getAccessToken env s config installationID).1 =
        ⟨s.trace ++ [Call.MakeAccessTokenForInstallation config.ApplicationID installationID
          config.PrivateKey], s.remote⟩ ∧
      (∀ t, env.exchange config.ApplicationID installationID config.PrivateKey = (t, none) →
        (getAccessToken env s config installationID).2 = (t, none)) ∧
      (∀ t e, env.exchange config.ApplicationID installationID config.PrivateKey = (t, some e) →
        (getAccessToken env s config installationID).2 = ("", some e))) := by
  refine ⟨?_, ?_⟩
  · intro tok h hne
    have hlen : ¬ len tok = 0 := fun h0 => hne ((len_eq_zero_iff tok).1 h0)
    simp [getAccessToken, Env.Getenv, h, hlen]
  · intro h
    have hlen : len (env.Getenv "personal_access_token") = 0 := by
      rcases h with h | h <;> simp [Env.Getenv, h, len_eq_zero_iff]
    refine ⟨?_, ?_, ?_⟩
    · simp only [getAccessToken, hlen, beq_self_eq_true, if_true]
      split <;> rfl
    · intro t ht
      simp [getAccessToken, hlen, ht]
    · intro t e ht
      simp [getAccessToken, hlen, ht]

theorem getAccessToken_spec_witness :
    getAccessToken envOverride ⟨[], ⟨[], [], []⟩⟩ sampleConfig 7 =
      (⟨[], ⟨[], [], []⟩⟩, "abc123", none) ∧
    (getAccessToken envOk ⟨[], ⟨[], [], []⟩⟩ sampleConfig 7).1 =
      ⟨[Call.MakeAccessTokenForInstallation "1234" 7 "private-key"], ⟨[], [], []⟩⟩ ∧
    (getAccessToken envOk ⟨[], ⟨[], [], []⟩⟩ sampleConfig 7).2 = ("installation-token", none) ∧
    (getAccessToken envNoToken ⟨[], ⟨[], [], []⟩⟩ sampleConfig 7).2 =
      ("", some "exchange failed") :=
  ⟨(getAccessToken_spec envOverride ⟨[], ⟨[], [], []⟩⟩ sampleConfig 7).1 "abc123" rfl (by decide),
   ((getAccessToken_spec envOk ⟨[], ⟨[], [], []⟩⟩ sampleConfig 7).2 (Or.inl rfl)).1,
   ((getAccessToken_spec envOk ⟨[], ⟨[], [], []⟩⟩ sampleConfig 7).2 (Or.inl rfl)).2.1 _ rfl,
   ((getAccessToken_spec envNoToken ⟨[], ⟨[], [], []⟩⟩ sampleConfig 7).2 (Or.inl rfl)).2.2 _ _ rfl⟩

/-! ## Failure semantics of `HandlePullRequest` -/

theorem handle_stops (env : Env) (remote : Remote) (req : PullRequestOuter)
    (contributingURL : String) (config : Config) :
    stopsAtFailure env (HandlePullRequest env remote req contributingURL config).trace = true := by
  rcases getAccessToken_cases env remote config req.Installation.ID with
    ⟨tok, h⟩ | ⟨tok, h, hf⟩ | ⟨e, h, hf⟩
  · rw [HandlePullRequest_eq_of_token _ _ _ _ _ _ _ h]
    clear h
    split_ifs <;> (try rw [applyNoDco_eq]) <;> (try rw [clearNoDco_eq]) <;> (try split_ifs) <;>
      simp [stopsAtFailure, callFails, *]
  · rw [HandlePullRequest_eq_of_token _ _ _ _ _ _ _ h]
    clear h
    split_ifs <;> (try rw [applyNoDco_eq]) <;> (try rw [clearNoDco_eq]) <;> (try split_ifs) <;>
      simp [stopsAtFailure, callFails, *]
  · rw [HandlePullRequest_eq_of_token_error _ _ _ _ _ _ _ _ h]
    simp [stopsAtFailure, callFails, *]

theorem handle_failure_fatal (env : Env) (remote : Remote) (req : PullRequestOuter)
    (contributingURL : String) (config : Config) :
    ∀ c ∈ (HandlePullRequest env remote req contributingURL config).trace,
      c.isApiCall = true → callFails env c = true →
      (HandlePullRequest env remote req contributingURL config).outcome = Outcome.fatal := by
  rcases getAccessToken_cases env remote config req.Installation.ID with
    ⟨tok, h⟩ | ⟨tok, h, hf⟩ | ⟨e, h, hf⟩
  · rw [HandlePullRequest_eq_of_token _ _ _ _ _ _ _ h]
    clear h
    split_ifs <;> (try rw [applyNoDco_eq]) <;> (try rw [clearNoDco_eq]) <;>
      (try split_ifs) <;> simp [callFails, Call.isApiCall, *]
  · rw [HandlePullRequest_eq_of_token _ _ _ _ _ _ _ h]
    clear h
    split_ifs <;> (try rw [applyNoDco_eq]) <;> (try rw [clearNoDco_eq]) <;>
      (try split_ifs) <;> simp [callFails, Call.isApiCall, *]
  · rw [HandlePullRequest_eq_of_token_error _ _ _ _ _ _ _ _ h]
    simp [callFails, Call.isApiCall]

theorem handle_no_comment_after_failed_add (env : Env) (remote : Remote)
    (req : PullRequestOuter) (contributingURL : String) (config : Config)
    (hA : env.fails (Call.AddLabelsToIssue req.Repository.Owner.Login req.Repository.Name
      req.PullRequest.Number ["no-dco"]) = true) :
    ∀ c ∈ (HandlePullRequest env remote req contributingURL config).trace,
      c.isCreateComment = false := by
  rcases getAccessToken_cases env remote config req.Installation.ID with
    ⟨tok, h⟩ | ⟨tok, h, hf⟩ | ⟨e, h, hf⟩
  · rw [HandlePullRequest_eq_of_token _ _ _ _ _ _ _ h]
    clear h
    split_ifs <;> (try rw [applyNoDco_eq]) <;> (try rw [clearNoDco_eq]) <;>
      (try split_ifs) <;> simp [Call.isCreateComment]
  · rw [HandlePullRequest_eq_of_token _ _ _ _ _ _ _ h]
    clear h
    split_ifs <;> (try rw [applyNoDco_eq]) <;> (try rw [clearNoDco_eq]) <;>
      (try split_ifs) <;> simp [Call.isCreateComment]
  · rw [HandlePullRequest_eq_of_token_error _ _ _ _ _ _ _ _ h]
    simp [Call.isCreateComment]

/-- C10: in every invocation of `HandlePullRequest` a call that comes back with an error
is the last call of the trace, and a failing API call ends the process; when token
acquisition fails no API call is made; a failed commit listing is followed by no label
fetch, label mutation or comment; a failed `AddLabels` for `no-dco` is followed by no
`CreateComment`. -/
theorem HandlePullRequest_stops_at_failure (env : Env) (remote : Remote)
    (req : PullRequestOuter) (contributingURL : String) (config : Config) :
    (∀ pre c post,
      (HandlePullRequest env remote req contributingURL config).trace = pre ++ c :: post →
      callFails env c = true → post = []) ∧
    (∀ c ∈ (HandlePullRequest env remote req contributingURL config).trace,
      c.isApiCall = true → callFails env c = true →
      (HandlePullRequest env remote req contributingURL config).outcome = Outcome.fatal) ∧
    ((getAccessToken env ⟨[], remote⟩ config req.Installation.ID).2.2 ≠ none →
      ∀ c ∈ (HandlePullRequest env remote req contributingURL config).trace,
        c.isApiCall = false) ∧
    (env.fails (Call.ListCommits req.Repository.Owner.Login req.Repository.Name
        req.PullRequest.Number 0) = true →
      ∀ c ∈ (HandlePullRequest env remote req contributingURL config).trace,
        c.isGetIssue = false ∧ c.isLabelMutation = false ∧ c.isCreateComment = false) ∧
    (env.fails (Call.AddLabelsToIssue req.Repository.Owner.Login req.Repository.Name
        req.PullRequest.Number ["no-dco"]) = true →
      ∀ c ∈ (HandlePullRequest env remote req contributingURL config).trace,
        c.isCreateComment = false) := by
  refine ⟨stopsAtFailure_sound env _ (handle_stops env remote req contributingURL config),
    handle_failure_fatal env remote req contributingURL config, ?_, ?_,
    handle_no_comment_after_failed_add env remote req contributingURL config⟩
  · rcases getAccessToken_cases env remote config req.Installation.ID with
      ⟨tok, h⟩ | ⟨tok, h, hf⟩ | ⟨e, h, hf⟩
    · simp [h]
    · simp [h]
    · rw [HandlePullRequest_eq_of_token_error _ _ _ _ _ _ _ _ h]
      simp [Call.isApiCall]
  · intro hL
    rcases getAccessToken_cases env remote config req.Installation.ID with
      ⟨tok, h⟩ | ⟨tok, h, hf⟩ | ⟨e, h, hf⟩
    · rw [HandlePullRequest_eq_of_token _ _ _ _ _ _ _ h, if_pos hL]
      simp [Call.isGetIssue, Call.isLabelMutation, Call.isCreateComment]
    · rw [HandlePullRequest_eq_of_token _ _ _ _ _ _ _ h, if_pos hL]
      simp [Call.isGetIssue, Call.isLabelMutation, Call.isCreateComment]
    · rw [HandlePullRequest_eq_of_token_error _ _ _ _ _ _ _ _ h]
      simp [Call.isGetIssue, Call.isLabelMutation, Call.isCreateComment]

theorem HandlePullRequest_stops_at_failure_witness :
    envListFails.fails (Call.ListCommits "alexellis" "derek" 42 0) = true ∧
    (∀ c ∈ (HandlePullRequest envListFails ⟨[commitWith "fix bug"], [], []⟩
        (sampleReq "opened" "" true) sampleURL sampleConfig).trace,
      c.isGetIssue = false ∧ c.isLabelMutation = false ∧ c.isCreateComment = false) ∧
    envAddFails.fails (Call.AddLabelsToIssue "alexellis" "derek" 42 ["no-dco"]) = true ∧
    (∀ c ∈ (HandlePullRequest envAddFails ⟨[commitWith "fix bug"], [], []⟩
        (sampleReq "synchronize" "" false) sampleURL sampleConfig).trace,
      c.isCreateComment = false) ∧
    (∀ c ∈ (HandlePullRequest envNoToken ⟨[commitWith "fix bug"], [], []⟩
        (sampleReq "opened" "" true) sampleURL sampleConfig).trace,
      c.isApiCall = false) :=
  ⟨rfl,
   (HandlePullRequest_stops_at_failure envListFails ⟨[commitWith "fix bug"], [], []⟩
      (sampleReq "opened" "" true) sampleURL sampleConfig).2.2.2.1 rfl,
   rfl,
   (HandlePullRequest_stops_at_failure envAddFails ⟨[commitWith "fix bug"], [], []⟩
      (sampleReq "synchronize" "" false) sampleURL sampleConfig).2.2.2.2 rfl,
   (HandlePullRequest_stops_at_failure envNoToken ⟨[commitWith "fix bug"], [], []⟩
      (sampleReq "opened" "" true) sampleURL sampleConfig).2.2.1 (by decide)⟩

/-! ## Call sequence of `HandlePullRequest` -/

theorem handle_fetched_before (env : Env) (remote : Remote) (req : PullRequestOuter)
    (contributingURL : String) (config : Config) :
    fetchedBefore "no-dco" false
      (HandlePullRequest env remote req contributingURL config).trace = true := by
  rcases getAccessToken_cases env remote config req.Installation.ID with
    ⟨tok, h⟩ | ⟨tok, h, hf⟩ | ⟨e, h, hf⟩
  · rw [HandlePullRequest_eq_of_token _ _ _ _ _ _ _ h]
    clear h
    split_ifs <;> (try rw [applyNoDco_eq]) <;> (try rw [clearNoDco_eq]) <;> (try split_ifs) <;>
      simp [fetchedBefore, Call.mutatesLabel, Call.isGetIssue]
  · rw [HandlePullRequest_eq_of_token _ _ _ _ _ _ _ h]
    clear h
    split_ifs <;> (try rw [applyNoDco_eq]) <;> (try rw [clearNoDco_eq]) <;> (try split_ifs) <;>
      simp [fetchedBefore, Call.mutatesLabel, Call.isGetIssue]
  · rw [HandlePullRequest_eq_of_token_error _ _ _ _ _ _ _ _ h]
    simp [fetchedBefore, Call.mutatesLabel, Call.isGetIssue]

theorem handle_counts (env : Env) (remote : Remote) (req : PullRequestOuter)
    (contributingURL : String) (config : Config) :
    (HandlePullRequest env remote req contributingURL config).trace.countP
      (Call.mutatesLabel "no-dco") ≤ 1 ∧
    (HandlePullRequest env remote req contributingURL config).trace.countP
      (Call.addsLabel "new-contributor") ≤ 1 ∧
    (HandlePullRequest env remote req contributingURL config).trace.countP
      Call.isLabelMutation ≤ 2 ∧
    (HandlePullRequest env remote req contributingURL config).trace.countP
      Call.isCreateComment ≤ 1 ∧
    (HandlePullRequest env remote req contributingURL config).trace.countP
      Call.isGetIssue ≤ 1 := by
  rcases getAccessToken_cases env remote config req.Installation.ID with
    ⟨tok, h⟩ | ⟨tok, h, hf⟩ | ⟨e, h, hf⟩
  · rw [HandlePullRequest_eq_of_token _ _ _ _ _ _ _ h]
    clear h
    split_ifs <;> (try rw [applyNoDco_eq]) <;> (try rw [clearNoDco_eq]) <;> (try split_ifs) <;>
      simp [List.countP_cons, Call.mutatesLabel, Call.addsLabel, Call.isLabelMutation,
        Call.isCreateComment, Call.isGetIssue]
  · rw [HandlePullRequest_eq_of_token _ _ _ _ _ _ _ h]
    clear h
    split_ifs <;> (try rw [applyNoDco_eq]) <;> (try rw [clearNoDco_eq]) <;> (try split_ifs) <;>
      simp [List.countP_cons, Call.mutatesLabel, Call.addsLabel, Call.isLabelMutation,
        Call.isCreateComment, Call.isGetIssue]
  · rw [HandlePullRequest_eq_of_token_error _ _ _ _ _ _ _ _ h]
    simp [List.countP_cons, Call.mutatesLabel, Call.addsLabel, Call.isLabelMutation,
        Call.isCreateComment, Call.isGetIssue]

/-- C6, refuted as stated: for an `opened` event of a first-time contributor with an
unsigned commit and no `no-dco` label, one invocation makes two label-mutation calls, and
the first of them comes before the label fetch. -/
theorem two_label_mutations_counterexample :
    (HandlePullRequest envOk ⟨[commitWith "fix bug"], [], []⟩
      (sampleReq "opened" "" true) sampleURL sampleConfig).trace =
      [Call.MakeAccessTokenForInstallation "1234" 7 "private-key",
       Call.ListCommits "alexellis" "derek" 42 0,
       Call.AddLabelsToIssue "alexellis" "derek" 42 ["new-contributor"],
       Call.GetIssue "alexellis" "derek" 42,
       Call.AddLabelsToIssue "alexellis" "derek" 42 ["no-dco"],
       Call.CreateComment "alexellis" "derek" 42 (unsignedCommentBody sampleURL)] ∧
    (HandlePullRequest envOk ⟨[commitWith "fix bug"], [], []⟩
      (sampleReq "opened" "" true) sampleURL sampleConfig).trace.countP
      Call.isLabelMutation = 2 :=
  ⟨by rfl, by decide⟩

/-- C6, amended: one invocation of `HandlePullRequest` makes at most one call that adds or
removes `no-dco`, at most one call that adds `new-contributor` (so at most two label
mutations), at most one `CreateComment` call and at most one label fetch, and every call
that adds or removes `no-dco` comes after the label fetch. -/
theorem HandlePullRequest_call_bounds (env : Env) (remote : Remote) (req : PullRequestOuter)
    (contributingURL : String) (config : Config) :
    (HandlePullRequest env remote req contributingURL config).trace.countP
      (Call.mutatesLabel "no-dco") ≤ 1 ∧
    (HandlePullRequest env remote req contributingURL config).trace.countP
      (Call.addsLabel "new-contributor") ≤ 1 ∧
    (HandlePullRequest env remote req contributingURL config).trace.countP
      Call.isLabelMutation ≤ 2 ∧
    (HandlePullRequest env remote req contributingURL config).trace.countP
      Call.isCreateComment ≤ 1 ∧
    (HandlePullRequest env remote req contributingURL config).trace.countP
      Call.isGetIssue ≤ 1 ∧
    (∀ pre c post,
      (HandlePullRequest env remote req contributingURL config).trace = pre ++ c :: post →
      c.mutatesLabel "no-dco" = true → ∃ g ∈ pre, g.isGetIssue = true) := by
  obtain ⟨h1, h2, h3, h4, h5⟩ := handle_counts env remote req contributingURL config
  refine ⟨h1, h2, h3, h4, h5, ?_⟩
  intro pre c post hsplit hc
  rcases fetchedBefore_sound "no-dco" _ false
    (handle_fetched_before env remote req contributingURL config) pre c post hsplit hc with h | h
  · exact Bool.noConfusion h
  · exact h

theorem HandlePullRequest_call_bounds_witness :
    (HandlePullRequest envOk ⟨[commitWith "fix bug"], [], []⟩
      (sampleReq "opened" "" true) sampleURL sampleConfig).trace.countP
      (Call.mutatesLabel "no-dco") ≤ 1 ∧
    ∃ g ∈ [Call.MakeAccessTokenForInstallation "1234" 7 "private-key",
        Call.ListCommits "alexellis" "derek" 42 0,
        Call.AddLabelsToIssue "alexellis" "derek" 42 ["new-contributor"],
        Call.GetIssue "alexellis" "derek" 42], g.isGetIssue = true :=
  ⟨(HandlePullRequest_call_bounds envOk ⟨[commitWith "fix bug"], [], []⟩
      (sampleReq "opened" "" true) sampleURL sampleConfig).1,
   (HandlePullRequest_call_bounds envOk ⟨[commitWith "fix bug"], [], []⟩
      (sampleReq "opened" "" true) sampleURL sampleConfig).2.2.2.2.2 _
      (Call.AddLabelsToIssue "alexellis" "derek" 42 ["no-dco"])
      [Call.CreateComment "alexellis" "derek" 42 (unsignedCommentBody sampleURL)]
      (by rfl) (by decide)⟩

/-! ## Idempotence -/

theorem unsigned_iff (commits : List RepositoryCommit) :
    hasUnsignedLoop false commits = true ↔
      ∃ c ∈ commits, ∃ cm m, c.Commit = some cm ∧ cm.Message = some m ∧
        ¬ "Signed-off-by:".toList <:+: m.toList := by
  rw [hasUnsignedLoop_iff]
  simp only [Bool.false_eq_true, false_or, ← isSigned_iff, Bool.not_eq_true]

theorem handle_quiet (env : Env) (remote : Remote) (req : PullRequestOuter)
    (contributingURL : String) (config : Config)
    (hU : hasUnsignedLoop false remote.commits = true)
    (hL : hasLabelNamed remote.labels "no-dco" = true) :
    (∀ c ∈ (HandlePullRequest env remote req contributingURL config).trace,
      c.mutatesLabel "no-dco" = false ∧ c.isRemoveLabel = false ∧ c.isCreateComment = false ∧
      (c.isLabelMutation = true →
        c = Call.AddLabelsToIssue req.Repository.Owner.Login req.Repository.Name
          req.PullRequest.Number ["new-contributor"] ∧
        req.Action = "opened" ∧ req.PullRequest.FirstTimeContributor = true)) ∧
    (HandlePullRequest env remote req contributingURL config).remote.commits = remote.commits ∧
    hasLabelNamed (HandlePullRequest env remote req contributingURL config).remote.labels
      "no-dco" = true := by
  have hL2 : hasNoDcoLabel (some ⟨remote.labels⟩) = true := hL
  have hL3 : hasNoDcoLabel (some ⟨insertLabels remote.labels ["new-contributor"]⟩) = true := by
    rw [hasNoDcoLabel_some, hasLabelNamed_insert, hL]
    rfl
  have hL4 : hasLabelNamed (insertLabels remote.labels ["new-contributor"]) "no-dco" = true :=
    hL3
  rcases getAccessToken_cases env remote config req.Installation.ID with
    ⟨tok, h⟩ | ⟨tok, h, hf⟩ | ⟨e, h, hf⟩
  · rw [HandlePullRequest_eq_of_token _ _ _ _ _ _ _ h]
    clear h
    split_ifs <;> (try rw [applyNoDco_eq]) <;> (try split_ifs) <;>
      simp_all [Call.mutatesLabel, Call.isRemoveLabel, Call.isCreateComment,
        Call.isLabelMutation, openedPRAction]
  · rw [HandlePullRequest_eq_of_token _ _ _ _ _ _ _ h]
    clear h
    split_ifs <;> (try rw [applyNoDco_eq]) <;> (try split_ifs) <;>
      simp_all [Call.mutatesLabel, Call.isRemoveLabel, Call.isCreateComment,
        Call.isLabelMutation, openedPRAction]
  · rw [HandlePullRequest_eq_of_token_error _ _ _ _ _ _ _ _ h]
    simp_all [Call.mutatesLabel, Call.isRemoveLabel, Call.isCreateComment,
        Call.isLabelMutation, openedPRAction]

/-- C5, refuted as stated: with an unsigned commit and the `no-dco` label already
present, an `opened` event of a first-time contributor still makes a label-mutation call,
the `AddLabels` call for `new-contributor`. -/
theorem idempotence_label_mutation_counterexample :
    hasUnsignedLoop false [commitWith "fix bug"] = true ∧
    hasNoDcoLabel (some ⟨[labelNamed "no-dco"]⟩) = true ∧
    (HandlePullRequest envOk ⟨[commitWith "fix bug"], [labelNamed "no-dco"], []⟩
      (sampleReq "opened" "" true) sampleURL sampleConfig).trace =
      [Call.MakeAccessTokenForInstallation "1234" 7 "private-key",
       Call.ListCommits "alexellis" "derek" 42 0,
       Call.AddLabelsToIssue "alexellis" "derek" 42 ["new-contributor"],
       Call.GetIssue "alexellis" "derek" 42] ∧
    (Call.AddLabelsToIssue "alexellis" "derek" 42 ["new-contributor"]).isLabelMutation = true := by
  decide

/-- C5, amended: when some commit has a message that lacks `Signed-off-by:` and the
`no-dco` label is already present, an invocation of `HandlePullRequest` makes no call that
adds or removes `no-dco`, no `RemoveLabel` call and no `CreateComment` call; its only
possible label mutation is the `AddLabels` call for `new-contributor`, made for an
`opened` event of a first-time contributor.  The same holds for a second invocation run
on the remote state the first one leaves. -/
theorem HandlePullRequest_idempotent (env env2 : Env) (remote : Remote)
    (req : PullRequestOuter) (contributingURL : String) (config : Config)
    (hUnsigned : ∃ c ∈ remote.commits, ∃ cm m, c.Commit = some cm ∧ cm.Message = some m ∧
      ¬ "Signed-off-by:".toList <:+: m.toList)
    (hLabel : ∃ l ∈ remote.labels, l.GetName = "no-dco") :
    (∀ c ∈ (HandlePullRequest env remote req contributingURL config).trace,
      c.mutatesLabel "no-dco" = false ∧ c.isRemoveLabel = false ∧ c.isCreateComment = false ∧
      (c.isLabelMutation = true →
        c = Call.AddLabelsToIssue req.Repository.Owner.Login req.Repository.Name
          req.PullRequest.Number ["new-contributor"] ∧
        req.Action = "opened" ∧ req.PullRequest.FirstTimeContributor = true)) ∧
    (∀ c ∈ (HandlePullRequest env2
        (HandlePullRequest env remote req contributingURL config).remote
        req contributingURL config).trace,
      c.mutatesLabel "no-dco" = false ∧ c.isRemoveLabel = false ∧ c.isCreateComment = false ∧
      (c.isLabelMutation = true →
        c = Call.AddLabelsToIssue req.Repository.Owner.Login req.Repository.Name
          req.PullRequest.Number ["new-contributor"] ∧
        req.Action = "opened" ∧ req.PullRequest.FirstTimeContributor = true)) := by
  have hU := (unsigned_iff remote.commits).2 hUnsigned
  have hL := (hasLabelNamed_iff remote.labels "no-dco").2 hLabel
  obtain ⟨h1, h2, h3⟩ := handle_quiet env remote req contributingURL config hU hL
  exact ⟨h1, (handle_quiet env2 _ req contributingURL config (by rw [h2]; exact hU) h3).1⟩

theorem HandlePullRequest_idempotent_witness :
    (HandlePullRequest envOk ⟨[commitWith "fix bug"], [], []⟩
      (sampleReq "synchronize" "" false) sampleURL sampleConfig).remote =
      ⟨[commitWith "fix bug"], [labelNamed "no-dco"], [unsignedCommentBody sampleURL]⟩ ∧
    (∀ c ∈ (HandlePullRequest envOk
        (HandlePullRequest envOk ⟨[commitWith "fix bug"], [], []⟩
          (sampleReq "synchronize" "" false) sampleURL sampleConfig).remote
        (sampleReq "synchronize" "" false) sampleURL sampleConfig).trace,
      c.mutatesLabel "no-dco" = false ∧ c.isRemoveLabel = false ∧ c.isCreateComment = false ∧
      (c.isLabelMutation = true →
        c = Call.AddLabelsToIssue "alexellis" "derek" 42 ["new-contributor"] ∧
        "synchronize" = "opened" ∧ false = true)) :=
  ⟨by rfl,
   (HandlePullRequest_idempotent envOk envOk
    (HandlePullRequest envOk ⟨[commitWith "fix bug"], [], []⟩
      (sampleReq "synchronize" "" false) sampleURL sampleConfig).remote
    (sampleReq "synchronize" "" false) sampleURL sampleConfig
    ⟨commitWith "fix bug", List.mem_singleton.2 rfl, ⟨some "fix bug"⟩, "fix bug", rfl, rfl,
      fun h => absurd ((isSigned_iff _).2 h) (by decide)⟩
    ⟨labelNamed "no-dco", by decide, rfl⟩).1⟩

/-! ## The transition table -/

/-- C3: when token acquisition and every API call succeed and `hasUnsigned` returns `b`,
the trace of `HandlePullRequest` is the token calls, the commit listing, the
`new-contributor` addition when the event is `opened` by a first-time contributor, the
label fetch, and then exactly the calls of the transition table for the fetched label
state and `b`; the token calls are no API calls; the label state of the fetched issue is
whether a label is named exactly `no-dco`, and the `new-contributor` addition does not
change it. -/
theorem HandlePullRequest_transitions (env : Env) (remote : Remote) (req : PullRequestOuter)
    (contributingURL : String) (config : Config) (b : Bool)
    (hTok : (getAccessToken env ⟨[], remote⟩ config req.Installation.ID).2.2 = none)
    (hOk : ∀ c, env.fails c = false)
    (hU : (hasUnsigned env (getAccessToken env ⟨[], remote⟩ config req.Installation.ID).1
      req).2 = some (b, none)) :
    (HandlePullRequest env remote req contributingURL config).trace =
      (getAccessToken env ⟨[], remote⟩ config req.Installation.ID).1.trace ++
      [Call.ListCommits req.Repository.Owner.Login req.Repository.Name
        req.PullRequest.Number 0] ++
      (if req.Action = "opened" ∧ req.PullRequest.FirstTimeContributor = true then
        [Call.AddLabelsToIssue req.Repository.Owner.Login req.Repository.Name
          req.PullRequest.Number ["new-contributor"]]
       else []) ++
      [Call.GetIssue req.Repository.Owner.Login req.Repository.Name req.PullRequest.Number] ++
      transitionTable req contributingURL (hasNoDcoLabel (some ⟨remote.labels⟩)) b ∧
    (∀ c ∈ (getAccessToken env ⟨[], remote⟩ config req.Installation.ID).1.trace,
      c.isApiCall = false) ∧
    (HandlePullRequest env remote req contributingURL config).outcome = Outcome.returned ∧
    (hasNoDcoLabel (some ⟨remote.labels⟩) = true ↔ ∃ l ∈ remote.labels, l.GetName = "no-dco") ∧
    hasNoDcoLabel (some ⟨insertLabels remote.labels ["new-contributor"]⟩) =
      hasNoDcoLabel (some ⟨remote.labels⟩) := by
  have hIns : hasNoDcoLabel (some ⟨insertLabels remote.labels ["new-contributor"]⟩) =
      hasNoDcoLabel (some ⟨remote.labels⟩) := by
    rw [hasNoDcoLabel_some, hasNoDcoLabel_some, hasLabelNamed_insert]
    simp
  have hb : ∀ s0 tok, getAccessToken env ⟨[], remote⟩ config req.Installation.ID =
      (s0, tok, none) → s0.remote = remote → b = hasUnsignedLoop false remote.commits := by
    intro s0 tok h hr
    rw [h, hasUnsigned_eq] at hU
    simp only [hOk, Bool.false_eq_true, if_false, Option.some.injEq, Prod.mk.injEq,
      and_true, hr] at hU
    exact hU.symm
  have hTr : ∀ c ∈ (getAccessToken env ⟨[], remote⟩ config req.Installation.ID).1.trace,
      c.isApiCall = false := by
    rcases getAccessToken_cases env remote config req.Installation.ID with
      ⟨tok, h⟩ | ⟨tok, h, hf⟩ | ⟨e, h, hf⟩ <;> rw [h] <;> simp [Call.isApiCall]
  refine ⟨?_, hTr, ?_, by rw [hasNoDcoLabel_some, hasLabelNamed_iff], hIns⟩
  · clear hTr
    rcases getAccessToken_cases env remote config req.Installation.ID with
      ⟨tok, h⟩ | ⟨tok, h, hf⟩ | ⟨e, h, hf⟩
    · have hb2 := hb _ _ h rfl
      rw [HandlePullRequest_eq_of_token _ _ _ _ _ _ _ h, h]
      clear hb hU hTok h
      subst hb2
      simp only [applyNoDco_eq, clearNoDco_eq, hOk, hIns, Bool.false_eq_true, if_false,
        openedPRAction]
      by_cases h1 : req.Action = "opened" ∧ req.PullRequest.FirstTimeContributor = true <;>
      by_cases h2 : hasNoDcoLabel (some ⟨remote.labels⟩) = true <;>
      by_cases h3 : hasUnsignedLoop false remote.commits = true <;>
      simp [transitionTable, h1, h2, h3]
    · have hb2 := hb _ _ h rfl
      rw [HandlePullRequest_eq_of_token _ _ _ _ _ _ _ h, h]
      clear hb hU hTok h
      subst hb2
      simp only [applyNoDco_eq, clearNoDco_eq, hOk, hIns, Bool.false_eq_true, if_false,
        openedPRAction]
      by_cases h1 : req.Action = "opened" ∧ req.PullRequest.FirstTimeContributor = true <;>
      by_cases h2 : hasNoDcoLabel (some ⟨remote.labels⟩) = true <;>
      by_cases h3 : hasUnsignedLoop false remote.commits = true <;>
      simp [transitionTable, h1, h2, h3]
    · rw [h] at hTok
      exact Option.noConfusion hTok
  · rcases getAccessToken_cases env remote config req.Installation.ID with
      ⟨tok, h⟩ | ⟨tok, h, hf⟩ | ⟨e, h, hf⟩
    · rw [HandlePullRequest_eq_of_token _ _ _ _ _ _ _ h]
      simp only [applyNoDco_eq, clearNoDco_eq, hOk, Bool.false_eq_true, if_false]
      split_ifs <;> rfl
    · rw [HandlePullRequest_eq_of_token _ _ _ _ _ _ _ h]
      simp only [applyNoDco_eq, clearNoDco_eq, hOk, Bool.false_eq_true, if_false]
      split_ifs <;> rfl
    · rw [h] at hTok
      exact Option.noConfusion hTok

theorem HandlePullRequest_transitions_witness :
    (HandlePullRequest envOk
      ⟨[commitWith "feat: x\nSigned-off-by: a <a@b.com>"], [labelNamed "no-dco"], []⟩
      (sampleReq "synchronize" "" false) sampleURL sampleConfig).trace =
      [Call.MakeAccessTokenForInstallation "1234" 7 "private-key",
       Call.ListCommits "alexellis" "derek" 42 0,
       Call.GetIssue "alexellis" "derek" 42,
       Call.RemoveLabelForIssue "alexellis" "derek" 42 "no-dco"] ∧
    (HandlePullRequest envOk ⟨[commitWith "fix bug"], [], []⟩
      (sampleReq "opened" "" true) sampleURL sampleConfig).trace =
      [Call.MakeAccessTokenForInstallation "1234" 7 "private-key",
       Call.ListCommits "alexellis" "derek" 42 0,
       Call.AddLabelsToIssue "alexellis" "derek" 42 ["new-contributor"],
       Call.GetIssue "alexellis" "derek" 42,
       Call.AddLabelsToIssue "alexellis" "derek" 42 ["no-dco"],
       Call.CreateComment "alexellis" "derek" 42 (unsignedCommentBody sampleURL)] :=
  ⟨(HandlePullRequest_transitions envOk
      ⟨[commitWith "feat: x\nSigned-off-by: a <a@b.com>"], [labelNamed "no-dco"], []⟩
      (sampleReq "synchronize" "" false) sampleURL sampleConfig false rfl (fun _ => rfl)
      (by decide)).1.trans (by rfl),
   (HandlePullRequest_transitions envOk ⟨[commitWith "fix bug"], [], []⟩
      (sampleReq "opened" "" true) sampleURL sampleConfig true rfl (fun _ => rfl)
      (by decide)).1.trans (by rfl)⟩

/-! ## The label invariant -/

theorem handle_label_state (env : Env) (remote : Remote) (req : PullRequestOuter)
    (contributingURL : String) (config : Config)
    (hTok : (getAccessToken env ⟨[], remote⟩ config req.Installation.ID).2.2 = none)
    (hOk : ∀ c, env.fails c = false) :
    hasLabelNamed (HandlePullRequest env remote req contributingURL config).remote.labels
      "no-dco" = hasUnsignedLoop false remote.commits := by
  have hIns : hasLabelNamed (insertLabels remote.labels ["new-contributor"]) "no-dco" =
      hasLabelNamed remote.labels "no-dco" := by
    rw [hasLabelNamed_insert]
    simp
  rcases getAccessToken_cases env remote config req.Installation.ID with
    ⟨tok, h⟩ | ⟨tok, h, hf⟩ | ⟨e, h, hf⟩
  · rw [HandlePullRequest_eq_of_token _ _ _ _ _ _ _ h]
    clear hTok h
    simp only [applyNoDco_eq, clearNoDco_eq, hOk, hasNoDcoLabel_some, hIns, Bool.false_eq_true,
      if_false]
    by_cases h1 : req.Action = openedPRAction ∧ req.PullRequest.FirstTimeContributor = true <;>
    by_cases h2 : hasLabelNamed remote.labels "no-dco" = true <;>
    by_cases h3 : hasUnsignedLoop false remote.commits = true <;>
    simp [h1, h2, h3, hasLabelNamed_insert, hasLabelNamed_delete_self, hIns]
  · rw [HandlePullRequest_eq_of_token _ _ _ _ _ _ _ h]
    clear hTok h
    simp only [applyNoDco_eq, clearNoDco_eq, hOk, hasNoDcoLabel_some, hIns, Bool.false_eq_true,
      if_false]
    by_cases h1 : req.Action = openedPRAction ∧ req.PullRequest.FirstTimeContributor = true <;>
    by_cases h2 : hasLabelNamed remote.labels "no-dco" = true <;>
    by_cases h3 : hasUnsignedLoop false remote.commits = true <;>
    simp [h1, h2, h3, hasLabelNamed_insert, hasLabelNamed_delete_self, hIns]
  · rw [h] at hTok
    exact Option.noConfusion hTok

/-- C4, refuted as stated: with a single commit whose message is nil and no label on the
issue, a fully successful invocation leaves the label set without `no-dco`. -/
theorem label_absent_nil_message_counterexample :
    (∃ c ∈ [commitNoMessage], ∃ cm, c.Commit = some cm ∧ cm.Message = none) ∧
    (HandlePullRequest envOk ⟨[commitNoMessage], [], []⟩
      (sampleReq "synchronize" "" false) sampleURL sampleConfig) =
      ⟨[Call.MakeAccessTokenForInstallation "1234" 7 "private-key",
        Call.ListCommits "alexellis" "derek" 42 0,
        Call.GetIssue "alexellis" "derek" 42],
       ⟨[commitNoMessage], [], []⟩, Outcome.returned⟩ ∧
    ¬ ∃ l ∈ (HandlePullRequest envOk ⟨[commitNoMessage], [], []⟩
      (sampleReq "synchronize" "" false) sampleURL sampleConfig).remote.labels,
      l.GetName = "no-dco" := by
  refine ⟨⟨commitNoMessage, List.mem_singleton.2 rfl, ⟨none⟩, rfl, rfl⟩, by decide, ?_⟩
  rw [← hasLabelNamed_iff]
  decide

/-- C4, amended: after an invocation of `HandlePullRequest` in which token acquisition and
every API call succeed, the label set holds a label named `no-dco` if and only if some
listed commit has a message that is present and lacks `Signed-off-by:`. -/
theorem HandlePullRequest_label_reflects_signoff (env : Env) (remote : Remote)
    (req : PullRequestOuter) (contributingURL : String) (config : Config)
    (hTok : (getAccessToken env ⟨[], remote⟩ config req.Installation.ID).2.2 = none)
    (hOk : ∀ c, env.fails c = false) :
    (∃ l ∈ (HandlePullRequest env remote req contributingURL config).remote.labels,
      l.GetName = "no-dco") ↔
    ∃ c ∈ remote.commits, ∃ cm m, c.Commit = some cm ∧ cm.Message = some m ∧
      ¬ "Signed-off-by:".toList <:+: m.toList := by
  rw [← hasLabelNamed_iff, ← unsigned_iff,
    handle_label_state env remote req contributingURL config hTok hOk]

theorem HandlePullRequest_label_reflects_signoff_witness :
    ((∃ l ∈ (HandlePullRequest envOk ⟨[commitWith "fix bug"], [], []⟩
        (sampleReq "synchronize" "" false) sampleURL sampleConfig).remote.labels,
      l.GetName = "no-dco") ↔
    ∃ c ∈ [commitWith "fix bug"], ∃ cm m, c.Commit = some cm ∧ cm.Message = some m ∧
      ¬ "Signed-off-by:".toList <:+: m.toList) ∧
    (HandlePullRequest envOk ⟨[commitWith "fix bug"], [], []⟩
        (sampleReq "synchronize" "" false) sampleURL sampleConfig).remote.labels =
      [labelNamed "no-dco"] :=
  ⟨HandlePullRequest_label_reflects_signoff envOk ⟨[commitWith "fix bug"], [], []⟩
    (sampleReq "synchronize" "" false) sampleURL sampleConfig rfl (fun _ => rfl), by decide⟩

/-! ## The first-time-contributor label -/

theorem handle_new_contributor_added (env : Env) (remote : Remote) (req : PullRequestOuter)
    (contributingURL : String) (config : Config)
    (hOpen : req.Action = "opened") (hFirst : req.PullRequest.FirstTimeContributor = true)
    (hTok : (getAccessToken env ⟨[], remote⟩ config req.Installation.ID).2.2 = none)
    (hList : env.fails (Call.ListCommits req.Repository.Owner.Login req.Repository.Name
      req.PullRequest.Number 0) = false) :
    (HandlePullRequest env remote req contributingURL config).trace.countP
      (Call.addsLabel "new-contributor") = 1 ∧
    Call.AddLabelsToIssue req.Repository.Owner.Login req.Repository.Name
      req.PullRequest.Number ["new-contributor"] ∈
      (HandlePullRequest env remote req contributingURL config).trace ∧
    (env.fails (Call.AddLabelsToIssue req.Repository.Owner.Login req.Repository.Name
      req.PullRequest.Number ["new-contributor"]) = false →
      hasLabelNamed (HandlePullRequest env remote req contributingURL config).remote.labels
        "new-contributor" = true) := by
  have h1 : req.Action = openedPRAction ∧ req.PullRequest.FirstTimeContributor = true :=
    ⟨hOpen, hFirst⟩
  have hne : "new-contributor" ≠ "no-dco" := by decide
  rcases getAccessToken_cases env remote config req.Installation.ID with
    ⟨tok, h⟩ | ⟨tok, h, hf⟩ | ⟨e, h, hf⟩
  · rw [HandlePullRequest_eq_of_token _ _ _ _ _ _ _ h]
    clear hTok h
    simp only [hList, Bool.false_eq_true, if_false, h1, and_self, if_true]
    split_ifs <;> (try rw [applyNoDco_eq]) <;> (try rw [clearNoDco_eq]) <;> (try split_ifs) <;>
      simp_all [List.countP_cons, Call.addsLabel, hasLabelNamed_insert,
        hasLabelNamed_delete_other]
  · rw [HandlePullRequest_eq_of_token _ _ _ _ _ _ _ h]
    clear hTok h
    simp only [hList, Bool.false_eq_true, if_false, h1, and_self, if_true]
    split_ifs <;> (try rw [applyNoDco_eq]) <;> (try rw [clearNoDco_eq]) <;> (try split_ifs) <;>
      simp_all [List.countP_cons, Call.addsLabel, hasLabelNamed_insert,
        hasLabelNamed_delete_other]
  · rw [h] at hTok
    exact Option.noConfusion hTok

theorem handle_new_contributor_not_added (env : Env) (remote : Remote)
    (req : PullRequestOuter) (contributingURL : String) (config : Config)
    (hNot : ¬ (req.Action = "opened" ∧ req.PullRequest.FirstTimeContributor = true)) :
    ∀ c ∈ (HandlePullRequest env remote req contributingURL config).trace,
      c.addsLabel "new-contributor" = false := by
  have h1 : ¬ (req.Action = openedPRAction ∧ req.PullRequest.FirstTimeContributor = true) :=
    hNot
  rcases getAccessToken_cases env remote config req.Installation.ID with
    ⟨tok, h⟩ | ⟨tok, h, hf⟩ | ⟨e, h, hf⟩
  · rw [HandlePullRequest_eq_of_token _ _ _ _ _ _ _ h]
    clear h
    simp only [h1, if_false]
    split_ifs <;> (try rw [applyNoDco_eq]) <;> (try rw [clearNoDco_eq]) <;> (try split_ifs) <;>
      simp [Call.addsLabel]
  · rw [HandlePullRequest_eq_of_token _ _ _ _ _ _ _ h]
    clear h
    simp only [h1, if_false]
    split_ifs <;> (try rw [applyNoDco_eq]) <;> (try rw [clearNoDco_eq]) <;> (try split_ifs) <;>
      simp [Call.addsLabel]
  · rw [HandlePullRequest_eq_of_token_error _ _ _ _ _ _ _ _ h]
    simp [Call.addsLabel]

/-- C7, refuted as stated: for an `opened` event of a first-time contributor,
`new-contributor` is never added when the commit listing fails (the process ends at the
listing) or when token acquisition fails (the handler returns before any API call). -/
theorem new_contributor_skipped_counterexample :
    (sampleReq "opened" "" true).Action = "opened" ∧
    (sampleReq "opened" "" true).PullRequest.FirstTimeContributor = true ∧
    HandlePullRequest envListFails ⟨[commitWith "fix bug"], [], []⟩
      (sampleReq "opened" "" true) sampleURL sampleConfig =
      ⟨[Call.MakeAccessTokenForInstallation "1234" 7 "private-key",
        Call.ListCommits "alexellis" "derek" 42 0],
       ⟨[commitWith "fix bug"], [], []⟩, Outcome.fatal⟩ ∧
    (∀ c ∈ (HandlePullRequest envListFails ⟨[commitWith "fix bug"], [], []⟩
      (sampleReq "opened" "" true) sampleURL sampleConfig).trace,
      c.addsLabel "new-contributor" = false) ∧
    HandlePullRequest envNoToken ⟨[commitWith "fix bug"], [], []⟩
      (sampleReq "opened" "" true) sampleURL sampleConfig =
      ⟨[Call.MakeAccessTokenForInstallation "1234" 7 "private-key"],
       ⟨[commitWith "fix bug"], [], []⟩, Outcome.returned⟩ := by
  decide

/-- C7, amended: for an `opened` event of a first-time contributor, when token acquisition
and the commit listing succeed, `HandlePullRequest` makes exactly one `AddLabels` call for
`new-contributor`, whatever `hasUnsigned` returns and whatever the label set is, and the
label is on the issue afterwards when that call succeeds; for an event with another action
or a non-first-time author it makes no call that adds `new-contributor`. -/
theorem HandlePullRequest_new_contributor (env : Env) (remote : Remote)
    (req : PullRequestOuter) (contributingURL : String) (config : Config) :
    (req.Action = "opened" → req.PullRequest.FirstTimeContributor = true →
      (getAccessToken env ⟨[], remote⟩ config req.Installation.ID).2.2 = none →
      env.fails (Call.ListCommits req.Repository.Owner.Login req.Repository.Name
        req.PullRequest.Number 0) = false →
      (HandlePullRequest env remote req contributingURL config).trace.countP
        (Call.addsLabel "new-contributor") = 1 ∧
      Call.AddLabelsToIssue req.Repository.Owner.Login req.Repository.Name
        req.PullRequest.Number ["new-contributor"] ∈
        (HandlePullRequest env remote req contributingURL config).trace ∧
      (env.fails (Call.AddLabelsToIssue req.Repository.Owner.Login req.Repository.Name
        req.PullRequest.Number ["new-contributor"]) = false →
        ∃ l ∈ (HandlePullRequest env remote req contributingURL config).remote.labels,
          l.GetName = "new-contributor")) ∧
    (¬ (req.Action = "opened" ∧ req.PullRequest.FirstTimeContributor = true) →
      ∀ c ∈ (HandlePullRequest env remote req contributingURL config).trace,
        c.addsLabel "new-contributor" = false) := by
  refine ⟨?_, handle_new_contributor_not_added env remote req contributingURL config⟩
  intro hOpen hFirst hTok hList
  obtain ⟨h1, h2, h3⟩ :=
    handle_new_contributor_added env remote req contributingURL config hOpen hFirst hTok hList
  exact ⟨h1, h2, fun hA => (hasLabelNamed_iff _ _).1 (h3 hA)⟩

theorem HandlePullRequest_new_contributor_witness :
    ((HandlePullRequest envOk ⟨[commitWith "fix bug"], [], []⟩
        (sampleReq "opened" "" true) sampleURL sampleConfig).trace.countP
        (Call.addsLabel "new-contributor") = 1 ∧
      Call.AddLabelsToIssue "alexellis" "derek" 42 ["new-contributor"] ∈
        (HandlePullRequest envOk ⟨[commitWith "fix bug"], [], []⟩
          (sampleReq "opened" "" true) sampleURL sampleConfig).trace ∧
      (envOk.fails (Call.AddLabelsToIssue "alexellis" "derek" 42 ["new-contributor"]) = false →
        ∃ l ∈ (HandlePullRequest envOk ⟨[commitWith "fix bug"], [], []⟩
          (sampleReq "opened" "" true) sampleURL sampleConfig).remote.labels,
          l.GetName = "new-contributor")) ∧
    (∀ c ∈ (HandlePullRequest envOk ⟨[commitWith "fix bug"], [], []⟩
        (sampleReq "synchronize" "" true) sampleURL sampleConfig).trace,
      c.addsLabel "new-contributor" = false) :=
  ⟨(HandlePullRequest_new_contributor envOk ⟨[commitWith "fix bug"], [], []⟩
      (sampleReq "opened" "" true) sampleURL sampleConfig).1 rfl rfl rfl rfl,
   (HandlePullRequest_new_contributor envOk ⟨[commitWith "fix bug"], [], []⟩
      (sampleReq "synchronize" "" true) sampleURL sampleConfig).2 (by decide)⟩

/-! ## The description enforcer -/

theorem trim_eq_nil_iff (l : List Char) :
    (l.dropWhile IsSpace).rdropWhile IsSpace = [] ↔ ∀ ch ∈ l, IsSpace ch = true := by
  rw [List.rdropWhile_eq_nil_iff]
  constructor
  · intro h
    have hnil : l.dropWhile IsSpace = [] := by
      by_contra hne
      have hhead := List.head_dropWhile_not IsSpace l hne
      have := h _ (List.head_mem hne)
      rw [this] at hhead
      exact Bool.noConfusion hhead
    exact List.dropWhile_eq_nil_iff.1 hnil
  · intro h
    rw [List.dropWhile_eq_nil_iff.2 h]
    intro x hx
    cases hx

theorem hasDescription_eq_false_iff (pr : PullRequest) :
    hasDescription pr = false ↔ ∀ ch ∈ pr.Body.toList, IsSpace ch = true := by
  rw [← trim_eq_nil_iff, ← Bool.not_eq_true]
  simp only [hasDescription, decide_eq_true_eq, gt_iff_lt, len_pos_iff, TrimSpace, ne_eq,
    not_not]
  rfl

theorem url_in_descriptionCommentBody (url : String) :
    url.toList <:+: (descriptionCommentBody url).toList := by
  unfold descriptionCommentBody
  simp only [String.toList, String.data_append]
  exact ⟨_, _, rfl⟩

theorem VerifyPullRequestDescription_eq_of_token (env : Env) (remote : Remote)
    (req : PullRequestOuter) (url : String) (config : Config) (s0 : St) (tok : String)
    (h : getAccessToken env ⟨[], remote⟩ config req.Installation.ID = (s0, tok, none)) :
    VerifyPullRequestDescription env remote req url config =
      if req.Action = openedPRAction ∧ hasDescription req.PullRequest = false then
        if env.fails (Call.AddLabelsToIssue req.Repository.Owner.Login req.Repository.Name
            req.PullRequest.Number [prDescriptionRequiredLabel]) = true then
          ⟨s0.trace ++ [Call.AddLabelsToIssue req.Repository.Owner.Login req.Repository.Name
            req.PullRequest.Number [prDescriptionRequiredLabel]], s0.remote, Outcome.fatal⟩
        else if env.fails (Call.CreateComment req.Repository.Owner.Login req.Repository.Name
            req.PullRequest.Number (descriptionCommentBody url)) = true then
          ⟨s0.trace ++ [Call.AddLabelsToIssue req.Repository.Owner.Login req.Repository.Name
            req.PullRequest.Number [prDescriptionRequiredLabel]] ++
            [Call.CreateComment req.Repository.Owner.Login req.Repository.Name
            req.PullRequest.Number (descriptionCommentBody url)],
            { s0.remote with
              labels := insertLabels s0.remote.labels [prDescriptionRequiredLabel] },
            Outcome.fatal⟩
        else
          ⟨s0.trace ++ [Call.AddLabelsToIssue req.Repository.Owner.Login req.Repository.Name
            req.PullRequest.Number [prDescriptionRequiredLabel]] ++
            [Call.CreateComment req.Repository.Owner.Login req.Repository.Name
            req.PullRequest.Number (descriptionCommentBody url)],
            { s0.remote with
              labels := insertLabels s0.remote.labels [prDescriptionRequiredLabel],
              comments := s0.remote.comments ++ [descriptionCommentBody url] },
            Outcome.returned⟩
      else ⟨s0.trace, s0.remote, Outcome.returned⟩ := by
  unfold VerifyPullRequestDescription
  rw [h]
  by_cases h1 : req.Action = openedPRAction <;>
  by_cases h2 : hasDescription req.PullRequest = false <;>
  by_cases h3 : env.fails (Call.AddLabelsToIssue req.Repository.Owner.Login req.Repository.Name
      req.PullRequest.Number [prDescriptionRequiredLabel]) = true <;>
  by_cases h4 : env.fails (Call.CreateComment req.Repository.Owner.Login req.Repository.Name
      req.PullRequest.Number (descriptionCommentBody url)) = true <;>
  simp [AddLabelsToIssue, CreateComment, St.call, St.fatal, St.returned, h1, h2, h3, h4]

theorem VerifyPullRequestDescription_eq_of_token_error (env : Env) (remote : Remote)
    (req : PullRequestOuter) (url : String) (config : Config) (s0 : St) (tok e : String)
    (h : getAccessToken env ⟨[], remote⟩ config req.Installation.ID = (s0, tok, some e)) :
    VerifyPullRequestDescription env remote req url config =
      ⟨s0.trace, s0.remote, Outcome.returned⟩ := by
  unfold VerifyPullRequestDescription
  rw [h]
  rfl

/-- C8, refuted as stated: for an `opened` event with a whitespace-only body, when token
acquisition fails the handler returns without applying the label or posting the comment,
and when the `AddLabels` call fails the process ends without the label or the comment. -/
theorem description_token_failure_counterexample :
    (sampleReq "opened" "   " false).Action = "opened" ∧
    hasDescription (sampleReq "opened" "   " false).PullRequest = false ∧
    VerifyPullRequestDescription envNoToken ⟨[], [], []⟩ (sampleReq "opened" "   " false)
      sampleURL sampleConfig =
      ⟨[Call.MakeAccessTokenForInstallation "1234" 7 "private-key"], ⟨[], [], []⟩,
        Outcome.returned⟩ ∧
    VerifyPullRequestDescription envAddFails ⟨[], [], []⟩ (sampleReq "opened" "   " false)
      sampleURL sampleConfig =
      ⟨[Call.MakeAccessTokenForInstallation "1234" 7 "private-key",
        Call.AddLabelsToIssue "alexellis" "derek" 42 ["invalid"]], ⟨[], [], []⟩,
        Outcome.fatal⟩ := by
  decide

/-- C8, amended: when token acquisition and every API call succeed, for an `opened` event
whose body is empty after trimming white space `VerifyPullRequestDescription` makes
exactly one `AddLabels` call for `invalid` followed by exactly one `CreateComment` call
whose body contains the contributing-guide URL, and the label and the comment are on the
issue afterwards; for every event that is not `opened` or whose trimmed body is not empty
it makes no API call and leaves the issue unchanged, whatever fails; it never calls
`RemoveLabel`; the body of three spaces counts as empty and `fixes #4` does not. -/
theorem VerifyPullRequestDescription_spec (env : Env) (remote : Remote)
    (req : PullRequestOuter) (contributingURL : String) (config : Config) :
    ((getAccessToken env ⟨[], remote⟩ config req.Installation.ID).2.2 = none →
      (∀ c, env.fails c = false) → req.Action = "opened" →
      (∀ ch ∈ req.PullRequest.Body.toList, IsSpace ch = true) →
      (VerifyPullRequestDescription env remote req contributingURL config).trace =
        (getAccessToken env ⟨[], remote⟩ config req.Installation.ID).1.trace ++
        [Call.AddLabelsToIssue req.Repository.Owner.Login req.Repository.Name
          req.PullRequest.Number ["invalid"],
         Call.CreateComment req.Repository.Owner.Login req.Repository.Name
          req.PullRequest.Number (descriptionCommentBody contributingURL)] ∧
      (VerifyPullRequestDescription env remote req contributingURL config).outcome =
        Outcome.returned ∧
      (∃ l ∈ (VerifyPullRequestDescription env remote req contributingURL config).remote.labels,
        l.GetName = "invalid") ∧
      (VerifyPullRequestDescription env remote req contributingURL config).remote.comments =
        remote.comments ++ [descriptionCommentBody contributingURL] ∧
      contributingURL.toList <:+: (descriptionCommentBody contributingURL).toList) ∧
    (¬ (req.Action = "opened" ∧ ∀ ch ∈ req.PullRequest.Body.toList, IsSpace ch = true) →
      (∀ c ∈ (VerifyPullRequestDescription env remote req contributingURL config).trace,
        c.isApiCall = false) ∧
      (VerifyPullRequestDescription env remote req contributingURL config).remote = remote) ∧
    (∀ c ∈ (VerifyPullRequestDescription env remote req contributingURL config).trace,
      c.isRemoveLabel = false) ∧
    hasDescription ⟨42, "   ", false⟩ = false ∧
    hasDescription ⟨42, "fixes #4", false⟩ = true := by
  refine ⟨?_, ?_, ?_, by decide, by decide⟩
  · intro hTok hOk hOpen hBlank
    have hD : hasDescription req.PullRequest = false :=
      (hasDescription_eq_false_iff _).2 hBlank
    have hc : req.Action = openedPRAction ∧ hasDescription req.PullRequest = false :=
      ⟨hOpen, hD⟩
    rcases getAccessToken_cases env remote config req.Installation.ID with
      ⟨tok, h⟩ | ⟨tok, h, hf⟩ | ⟨e, h, hf⟩
    · rw [VerifyPullRequestDescription_eq_of_token _ _ _ _ _ _ _ h, h]
      simp only [hc, hOk, and_self, if_true, Bool.false_eq_true, if_false]
      refine ⟨by simp [prDescriptionRequiredLabel], trivial, ?_, trivial,
        url_in_descriptionCommentBody _⟩
      rw [← hasLabelNamed_iff, hasLabelNamed_insert]
      simp [prDescriptionRequiredLabel]
    · rw [VerifyPullRequestDescription_eq_of_token _ _ _ _ _ _ _ h, h]
      simp only [hc, hOk, and_self, if_true, Bool.false_eq_true, if_false]
      refine ⟨by simp [prDescriptionRequiredLabel], trivial, ?_, trivial,
        url_in_descriptionCommentBody _⟩
      rw [← hasLabelNamed_iff, hasLabelNamed_insert]
      simp [prDescriptionRequiredLabel]
    · rw [h] at hTok
      exact Option.noConfusion hTok
  · intro hNot
    have hc : ¬ (req.Action = openedPRAction ∧ hasDescription req.PullRequest = false) := by
      rw [hasDescription_eq_false_iff]
      exact hNot
    rcases getAccessToken_cases env remote config req.Installation.ID with
      ⟨tok, h⟩ | ⟨tok, h, hf⟩ | ⟨e, h, hf⟩
    · rw [VerifyPullRequestDescription_eq_of_token _ _ _ _ _ _ _ h, if_neg hc]
      simp
    · rw [VerifyPullRequestDescription_eq_of_token _ _ _ _ _ _ _ h, if_neg hc]
      simp [Call.isApiCall]
    · rw [VerifyPullRequestDescription_eq_of_token_error _ _ _ _ _ _ _ _ h]
      simp [Call.isApiCall]
  · rcases getAccessToken_cases env remote config req.Installation.ID with
      ⟨tok, h⟩ | ⟨tok, h, hf⟩ | ⟨e, h, hf⟩
    · rw [VerifyPullRequestDescription_eq_of_token _ _ _ _ _ _ _ h]
      split_ifs <;> simp [Call.isRemoveLabel]
    · rw [VerifyPullRequestDescription_eq_of_token _ _ _ _ _ _ _ h]
      split_ifs <;> simp [Call.isRemoveLabel]
    · rw [VerifyPullRequestDescription_eq_of_token_error _ _ _ _ _ _ _ _ h]
      simp [Call.isRemoveLabel]

theorem VerifyPullRequestDescription_spec_witness :
    ((VerifyPullRequestDescription envOk ⟨[], [], []⟩ (sampleReq "opened" "   " false)
        sampleURL sampleConfig).trace =
        (getAccessToken envOk ⟨[], ⟨[], [], []⟩⟩ sampleConfig 7).1.trace ++
        [Call.AddLabelsToIssue "alexellis" "derek" 42 ["invalid"],
         Call.CreateComment "alexellis" "derek" 42 (descriptionCommentBody sampleURL)] ∧
      (VerifyPullRequestDescription envOk ⟨[], [], []⟩ (sampleReq "opened" "   " false)
        sampleURL sampleConfig).outcome = Outcome.returned ∧
      (∃ l ∈ (VerifyPullRequestDescription envOk ⟨[], [], []⟩ (sampleReq "opened" "   " false)
        sampleURL sampleConfig).remote.labels, l.GetName = "invalid") ∧
      (VerifyPullRequestDescription envOk ⟨[], [], []⟩ (sampleReq "opened" "   " false)
        sampleURL sampleConfig).remote.comments = [] ++ [descriptionCommentBody sampleURL] ∧
      sampleURL.toList <:+: (descriptionCommentBody sampleURL).toList) ∧
    ((∀ c ∈ (VerifyPullRequestDescription envOk ⟨[], [], []⟩ (sampleReq "opened" "fixes #4" false)
        sampleURL sampleConfig).trace, c.isApiCall = false) ∧
      (VerifyPullRequestDescription envOk ⟨[], [], []⟩ (sampleReq "opened" "fixes #4" false)
        sampleURL sampleConfig).remote = ⟨[], [], []⟩) :=
  ⟨(VerifyPullRequestDescription_spec envOk ⟨[], [], []⟩ (sampleReq "opened" "   " false)
      sampleURL sampleConfig).1 rfl (fun _ => rfl) rfl (by decide),
   (VerifyPullRequestDescription_spec envOk ⟨[], [], []⟩ (sampleReq "opened" "fixes #4" false)
      sampleURL sampleConfig).2.1 (by decide)⟩

end Derek
